import Mathlib

/-!
Verification of the PowerBuy scraping pipeline (bkk_gadget_hub) against its
natural-language specification.

The Python sources embedded here are:
* src/validators/stock_normalizer.py  (StockStatusNormalizer)
* src/parsers/powerbuy_parser.py      (PriceParser, PowerBuyJSONParser, DataTransformer)
* src/validators/models.py            (RawProductData / ProductData pydantic validators)
* src/producers/data_producer.py      (DataProducer batch pipeline)

Modelling conventions:
* Python `str` is Lean `String` (a list of unicode scalar values); `str.lower`,
  `str.upper` act on ASCII letters (the identity on Thai characters, matching
  Python on every character that occurs in this code base).
* Python whitespace (`\s`, `strip`) is modelled by the ASCII whitespace set
  (space, tab, newline, carriage return, vertical tab, form feed).
* Python `float` is modelled by `ℚ` (exact rational arithmetic); `round(x, 2)`
  is round-half-to-even on `100 * x`, Python's rounding mode.  Non-finite
  floats (inf, nan) are outside the model.
* `datetime.now().strftime(...)` is threaded through as an explicit timestamp
  string parameter `ts`.
* Python exceptions are modelled with `Except PyErr`; a `try/except Exception`
  block is an explicit `match` on the body's result.
* Mutable statistics dictionaries are threaded as explicit state values.
-/

attribute [local semireducible] Rat.add Rat.mul Rat.sub Rat.inv Rat.ofScientific

namespace BkkGadgetHub

/-! ## Python string primitives -/

/-- ASCII whitespace, the characters Python's `str.strip` / `\s` remove in
this code base (the source strings never contain non-ASCII whitespace). -/
def pyIsWS (c : Char) : Bool :=
  c = ' ' || c = Char.ofNat 9 || c = Char.ofNat 10 || c = Char.ofNat 13 ||
  c = Char.ofNat 11 || c = Char.ofNat 12

/-- `str.lower` on one character: ASCII letters are mapped, everything else
(including Thai script, which has no case) is fixed. -/
def pyLowerChar (c : Char) : Char :=
  if 65 ≤ c.toNat ∧ c.toNat ≤ 90 then Char.ofNat (c.toNat + 32) else c

/-- `str.upper` on one character. -/
def pyUpperChar (c : Char) : Char :=
  if 97 ≤ c.toNat ∧ c.toNat ≤ 122 then Char.ofNat (c.toNat - 32) else c

/-- Left strip: drop leading whitespace. -/
def lstripL (l : List Char) : List Char := l.dropWhile pyIsWS

/-- Python `str.strip()` on a character list. -/
def pyStripL (l : List Char) : List Char :=
  ((lstripL l).reverse.dropWhile pyIsWS).reverse

/-- Python `str.strip()`. -/
def pyStrip (s : String) : String := String.mk (pyStripL s.data)

/-- Python `str.lower()`. -/
def pyLower (s : String) : String := String.mk (s.data.map pyLowerChar)

/-- Python `str.upper()`. -/
def pyUpper (s : String) : String := String.mk (s.data.map pyUpperChar)

mutual

/-- `re.sub(r'\s+', ' ', _)`: collapse every whitespace run to one space. -/
def collapseWS : List Char → List Char
  | [] => []
  | c :: rest =>
    if pyIsWS c then ' ' :: collapseWSAfter rest else c :: collapseWS rest

/-- State of `collapseWS` just after emitting the space for a run. -/
def collapseWSAfter : List Char → List Char
  | [] => []
  | c :: rest =>
    if pyIsWS c then collapseWSAfter rest else c :: collapseWS rest

end

/-- `re.sub(r'\s+', ' ', s.strip())`, the whitespace normalisation used by the
name cleaning code. -/
def collapseWSStr (s : String) : String := String.mk (collapseWS (pyStripL s.data))

/-- Does `p` occur as a leading run of `l` (character-list version of
startsWith)? -/
def startsWithL : List Char → List Char → Bool
  | [], _ => true
  | _ :: _, [] => false
  | p :: ps, c :: cs => p = c && startsWithL ps cs

/-- Python `p in s` substring test on character lists. -/
def containsSub : List Char → List Char → Bool
  | p, [] => p.isEmpty
  | p, c :: rest => startsWithL p (c :: rest) || containsSub p rest

/-- Python substring membership `p in s` for strings. -/
def pyInStr (p s : String) : Bool := containsSub p.data s.data

/-- Word characters for Python's `\b` (re, unicode mode).  Modelled as ASCII
alphanumerics, the underscore, and the Thai block U+0E01–U+0E5B, which covers
every character occurring in this code base. -/
def pyWordChar (c : Char) : Bool :=
  c.isAlphanum || c = Char.ofNat 95 || (0xE01 ≤ c.toNat && c.toNat ≤ 0xE5B)

/-- A `\b` boundary holds before a position whose previous character is `prev`
(`none` at the start of the string). -/
def boundaryOk : Option Char → Bool
  | none => true
  | some c => !pyWordChar c

/-- A `\b` boundary holds after the match when the remainder `rest` starts with
a non-word character or is empty. -/
def boundaryAfterOk : List Char → Bool
  | [] => true
  | c :: _ => !pyWordChar c

/-- `re.search(rf'\b{pat}\b', s)` for a literal pattern: some occurrence of
`pat` has word boundaries on both sides.  `prev` is the character before the
current position. -/
def wordBoundarySearch (p : List Char) : Option Char → List Char → Bool
  | prev, [] => boundaryOk prev && p.isEmpty
  | prev, c :: rest =>
    (boundaryOk prev && startsWithL p (c :: rest) &&
      boundaryAfterOk (List.drop p.length (c :: rest))) ||
    wordBoundarySearch p (some c) rest

/-! ## StockStatusNormalizer (src/validators/stock_normalizer.py) -/

/-- `self.in_stock_patterns` from `StockStatusNormalizer.__init__`. -/
def inStockPatterns : List String :=
  [ "in stock", "available", "in-stock", "instock",
    "yes", "true", "1", "ready", "ready to ship",
    "on hand", "stocked", "inventory available",
    "มีสินค้า", "พร้อมส่ง", "มีของ", "มีสต็อก",
    "พร้อมจัดส่ง", "มีในสต็อก", "สินค้าพร้อม",
    "พร้อมขาย", "มีจำหน่าย", "สินค้ามี",
    "available now", "ready now", "พร้อมทันที",
    "มีสินค้าพร้อมส่ง", "สินค้าพร้อมจัดส่ง" ]

/-- `self.out_of_stock_patterns` from `StockStatusNormalizer.__init__`. -/
def outOfStockPatterns : List String :=
  [ "out of stock", "unavailable", "out-of-stock", "outofstock",
    "no", "false", "0", "sold out", "not available",
    "no stock", "empty", "depleted", "exhausted",
    "หมด", "สินค้าหมด", "ไม่มีสินค้า", "ไม่มีของ",
    "ไม่มีสต็อก", "สต็อกหมด", "ขายหมด",
    "ไม่พร้อมส่ง", "ไม่มีในสต็อก", "สินค้าไม่พร้อม",
    "temporarily unavailable", "ชั่วคราวหมด",
    "สินค้าหมดชั่วคราว", "ไม่มีสินค้าในขณะนี้" ]

/-- `StockStatusNormalizer._clean_status_string`: lowercase + strip, collapse
whitespace runs to one space, delete the punctuation class `[.,!?;:]`. -/
def cleanStatusString (status : String) : String :=
  let cleaned := pyStripL ((pyLower status).data)
  let cleaned := collapseWS cleaned
  let cleaned := cleaned.filter (fun c =>
    !(c = '.' || c = ',' || c = '!' || c = '?' || c = ';' || c = ':'))
  String.mk cleaned

/-- Is a pattern entirely ASCII letters and whitespace
(`re.match(r'^[a-zA-Z\s]+$', pattern)`)? -/
def isEnglishWordsPattern (p : String) : Bool :=
  !p.data.isEmpty && p.data.all (fun c => c.isAlpha || pyIsWS c)

/-- `StockStatusNormalizer._matches_patterns`: for each pattern try exact
match, then substring match, then (for letters-and-space patterns) a
word-boundary search.  `status` is the already-cleaned status string. -/
def matchesPatterns (status : String) (patterns : List String) : Bool :=
  patterns.any (fun pattern =>
    let patternLower := pyLower pattern
    status = patternLower ||
    pyInStr patternLower status ||
    (isEnglishWordsPattern pattern &&
      wordBoundarySearch patternLower.data none status.data))

/-- `StockStatusNormalizer.normalize_stock_status` (statistics tracking
omitted: it never influences the returned value).  `none` models Python
`None`; `not status` is true for `None` and for the empty string. -/
def normalizeStockStatus (status : Option String) : String :=
  match status with
  | none => "Unknown"
  | some s =>
    if s = "" then "Unknown"
    else
      let cleaned := cleanStatusString s
      if matchesPatterns cleaned outOfStockPatterns then "Out of Stock"
      else if matchesPatterns cleaned inStockPatterns then "In Stock"
      else "Unknown"

/-! ## Decimal digit strings

Support for Python's `float(...)` literal parser and `str(...)` of a float,
needed by `PriceParser`. -/

/-- The decimal digit characters. -/
def digitChar : ℕ → Char
  | 0 => '0' | 1 => '1' | 2 => '2' | 3 => '3' | 4 => '4'
  | 5 => '5' | 6 => '6' | 7 => '7' | 8 => '8' | 9 => '9'
  | _ => '*'

/-- Numeric value of a digit character. -/
def charDigitVal (c : Char) : ℕ := c.toNat - 48

/-- Big-endian decimal digits of `n`, driven by explicit fuel so that the
definition is structurally recursive (and hence evaluates inside `decide`). -/
def natDigitsBE : ℕ → ℕ → List ℕ
  | 0, _ => []
  | fuel + 1, n => if n = 0 then [] else natDigitsBE fuel (n / 10) ++ [n % 10]

/-- Decimal string of a natural number (Python `str` of an `int` value). -/
def natToDecStr (n : ℕ) : String :=
  if n = 0 then "0" else String.mk ((natDigitsBE n n).map digitChar)

/-- Value of a big-endian digit-character list. -/
def parseDigitsBE (l : List Char) : ℕ :=
  l.foldl (fun a c => 10 * a + charDigitVal c) 0

/-- Split a list at the first element satisfying `p`: returns the part before
it and, when found, the part after it. -/
def splitFirst (p : Char → Bool) : List Char → List Char × Option (List Char)
  | [] => ([], none)
  | c :: rest =>
    if p c then ([], some rest)
    else
      let r := splitFirst p rest
      (c :: r.1, r.2)

/-- Python `float(s)` on the decimal grammar
`[ws] [sign] digits [. digits] [(e|E) [sign] digits] [ws]`, returning the
exact rational value.  Underscore digit separators and the non-finite
literals (inf/nan), which cannot arise from this code's cleaned price
strings, are outside the model. -/
def pyFloat (s : String) : Option ℚ :=
  let cs := pyStripL s.data
  let signAndRest : ℚ × List Char :=
    match cs with
    | c :: r => if c = '+' then (1, r) else if c = '-' then (-1, r) else (1, c :: r)
    | [] => (1, [])
  let sgn := signAndRest.1
  let body := signAndRest.2
  let mantAndExp := splitFirst (fun c => c = 'e' || c = 'E') body
  let mant := mantAndExp.1
  let mantVal : Option ℚ :=
    match splitFirst (fun c => c = '.') mant with
    | (intPart, none) =>
      if !intPart.isEmpty && intPart.all Char.isDigit then
        some ((parseDigitsBE intPart : ℚ))
      else none
    | (intPart, some fracPart) =>
      if !(intPart ++ fracPart).isEmpty && (intPart ++ fracPart).all Char.isDigit
          && !fracPart.any (fun c => c = '.') then
        some ((parseDigitsBE intPart : ℚ) +
          (parseDigitsBE fracPart : ℚ) / (10 : ℚ) ^ fracPart.length)
      else none
  match mantVal with
  | none => none
  | some m =>
    match mantAndExp.2 with
    | none => some (sgn * m)
    | some expPart =>
      let expSignAndRest : ℤ × List Char :=
        match expPart with
        | c :: r => if c = '+' then (1, r) else if c = '-' then (-1, r) else (1, c :: r)
        | [] => (1, [])
      if !expSignAndRest.2.isEmpty && expSignAndRest.2.all Char.isDigit then
        some (sgn * m *
          (10 : ℚ) ^ (expSignAndRest.1 * (parseDigitsBE expSignAndRest.2 : ℤ)))
      else none

/-- Round-half-to-even to an integer (Python's rounding mode for `round`). -/
def rhe (q : ℚ) : ℤ :=
  let f := ⌊q⌋
  let r := q - (f : ℚ)
  if r < 1 / 2 then f
  else if 1 / 2 < r then f + 1
  else if f % 2 = 0 then f else f + 1

/-- Python `round(x, 2)` in the exact rational model. -/
def round2 (q : ℚ) : ℚ := (rhe (q * 100) : ℚ) / 100

/-- Python `str(f)` for a non-negative float `f` carrying at most two decimal
digits (every value `PriceParser.parse_price` returns): the shortest decimal
form, always with at least one fractional digit (`str(999.0) == "999.0"`). -/
def pyFloatStr (q : ℚ) : String :=
  let m := (⌊q * 100⌋).toNat
  let ip := m / 100
  let rem := m % 100
  let fracStr : String :=
    if rem = 0 then "0"
    else if rem % 10 = 0 then natToDecStr (rem / 10)
    else if rem < 10 then "0" ++ natToDecStr rem
    else natToDecStr rem
  natToDecStr ip ++ "." ++ fracStr

/-! ## PriceParser (src/parsers/powerbuy_parser.py) -/

/-- Case-insensitive prefix match (`re.IGNORECASE` on a literal pattern). -/
def startsWithCI : List Char → List Char → Bool
  | [], _ => true
  | _ :: _, [] => false
  | p :: ps, c :: cs => pyLowerChar p = pyLowerChar c && startsWithCI ps cs

/-- One scan step of `re.sub(rf'\b{word}\b', '', s, flags=re.IGNORECASE)`:
at the current position (`prev` is the previous character of the original
string), does the word match with boundaries on both sides? -/
def wordMatchHere (w : List Char) (prev : Option Char) (s : List Char) : Bool :=
  boundaryOk prev && startsWithCI w s && boundaryAfterOk (List.drop w.length s)

/-- Scanner for `re.sub(rf'\b{word}\b', '', s, flags=re.IGNORECASE)`: walk the
string left to right; at a boundary match delete the matched characters and
resume scanning after them (the previous character is then the last matched
one).  Fuel is the remaining length, making the recursion structural. -/
def removeWordCIAux (w : List Char) : ℕ → Option Char → List Char → List Char
  | 0, _, s => s
  | fuel + 1, prev, s =>
    match s with
    | [] => []
    | c :: rest =>
      if wordMatchHere w prev (c :: rest) then
        removeWordCIAux w fuel ((List.take w.length (c :: rest)).getLast? )
          (List.drop w.length (c :: rest))
      else c :: removeWordCIAux w fuel (some c) rest

/-- `re.sub(rf'\b{re.escape(word)}\b', '', s, flags=re.IGNORECASE)` for the
currency words. -/
def removeWordCI (w : String) (l : List Char) : List Char :=
  removeWordCIAux w.data l.length none l

/-- `PriceParser._clean_price_string`: drop the baht sign, remove the currency
words with word boundaries, drop commas, remove all whitespace, repair a
multi-dot string by keeping only the last dot, and strip. -/
def cleanPriceString (priceStr : String) : String :=
  let cleaned := priceStr.data.filter (fun c => c ≠ '฿')
  let cleaned := removeWordCI "thb" cleaned
  let cleaned := removeWordCI "baht" cleaned
  let cleaned := removeWordCI "บาท" cleaned
  let cleaned := cleaned.filter (fun c => c ≠ ',')
  let cleaned := cleaned.filter (fun c => !pyIsWS c)
  let cleaned :=
    if 1 < cleaned.count '.' then
      -- `'.'.join(parts[:-1]).replace('.', '') + '.' + parts[-1]`: everything
      -- before the last dot with its own dots removed, then the last group
      let revSplit := splitFirst (fun c => c = '.') cleaned.reverse
      ((revSplit.2.getD []).reverse.filter (fun c => c ≠ '.')) ++
        '.' :: revSplit.1.reverse
    else cleaned
  String.mk (pyStripL cleaned)

/-- The `Union[str, int, float, None]` price argument. -/
inductive PriceInput : Type
  | pNone : PriceInput
  | pInt : ℤ → PriceInput
  | pFloat : ℚ → PriceInput
  | pStr : String → PriceInput
  deriving DecidableEq

/-- `PriceParser.parse_price`.  Error strings follow the Python messages but
drop the interpolated values. -/
def parsePrice : PriceInput → Except String ℚ
  | .pNone => .error "Price is None"
  | .pInt n =>
    if n < 0 then .error "Price cannot be negative"
    else .ok (round2 (n : ℚ))
  | .pFloat q =>
    if q < 0 then .error "Price cannot be negative"
    else .ok (round2 q)
  | .pStr s =>
    let priceStr := pyStrip s
    if priceStr = "" then .error "Price string is empty"
    else
      let cleaned := cleanPriceString priceStr
      if cleaned = "" then .error "Price string is empty after cleaning"
      else
        match pyFloat cleaned with
        | none => .error "Cannot convert price to float"
        | some parsed =>
          if parsed < 0 then .error "Price cannot be negative"
          else .ok (round2 parsed)

/-- `PriceParser.validate_price_range` (advisory only). -/
def validatePriceRange (price : ℚ) : Bool :=
  (1 / 100 : ℚ) ≤ price && price ≤ 1000000

/-! ## JSON values and Python operations on them -/

/-- A JSON value as produced by `json.load`.  Numbers are exact rationals;
objects are assoc lists with distinct keys in insertion order. -/
inductive Json : Type
  | null : Json
  | bool : Bool → Json
  | num : ℚ → Json
  | str : String → Json
  | arr : List Json → Json
  | obj : List (String × Json) → Json

/-- Python exceptions relevant to the modelled code paths. -/
inductive PyErr : Type
  | typeError : PyErr
  | keyError : PyErr
  deriving DecidableEq

/-- Is this value a Python `list` (`isinstance(x, list)`)? -/
def Json.isArr : Json → Bool
  | .arr _ => true
  | _ => false

/-- Is this value a Python `dict` (`isinstance(x, dict)`)? -/
def Json.isObj : Json → Bool
  | .obj _ => true
  | _ => false

/-- Python truthiness `bool(x)`. -/
def pyTruthy : Json → Bool
  | .null => false
  | .bool b => b
  | .num q => !(q = 0 : Bool) |>.not |>.not
  | .str s => !(s = "")
  | .arr l => !l.isEmpty
  | .obj l => !l.isEmpty

/-- Python `key in x`: dict key test, list membership (string equality against
elements), substring test on strings; a `TypeError` on the other types. -/
def pyIn (k : String) : Json → Except PyErr Bool
  | .obj l => .ok (l.any (fun kv => kv.1 = k))
  | .arr l => .ok (l.any (fun e => match e with | .str s => s = k | _ => false))
  | .str s => .ok (pyInStr k s)
  | _ => .error .typeError

/-- Python `x[k]` for a string key: dict lookup (`KeyError` when missing);
`TypeError` on every other type. -/
def pyGet (k : String) : Json → Except PyErr Json
  | .obj l =>
    match l.find? (fun kv => kv.1 = k) with
    | some kv => .ok kv.2
    | none => .error .keyError
  | _ => .error .typeError

/-- Python iteration `for item in x`: list elements, characters of a string
(as one-character strings), the keys of a dict; `TypeError` otherwise. -/
def pyIter : Json → Except PyErr (List Json)
  | .arr l => .ok l
  | .str s => .ok (s.data.map (fun c => Json.str (String.mk [c])))
  | .obj l => .ok (l.map (fun kv => Json.str kv.1))
  | _ => .error .typeError

/-- `dict[k] = v` (replace in place when the key exists, else append). -/
def objSet (l : List (String × Json)) (k : String) (v : Json) :
    List (String × Json) :=
  if l.any (fun kv => kv.1 = k) then
    l.map (fun kv => if kv.1 = k then (k, v) else kv)
  else l ++ [(k, v)]

/-- Python `repr` of a string: surround with single quotes. -/
def quoteStr (s : String) : String :=
  String.mk (Char.ofNat 39 :: s.data ++ [Char.ofNat 39])

/-- Python `str` of a JSON number: `int` values print without a decimal
point, `float` values in shortest decimal form. -/
def numStr (q : ℚ) : String :=
  if q.den = 1 then
    (if q.num < 0 then "-" ++ natToDecStr q.num.natAbs else natToDecStr q.num.natAbs)
  else (if q < 0 then "-" ++ pyFloatStr (-q) else pyFloatStr q)

mutual

/-- Python `str(x)`.  Container values use `repr` of their members; floats
that carry at most two decimals print in their shortest decimal form
(sufficient for every number this pipeline stringifies). -/
def pyStr : Json → String
  | .null => "None"
  | .bool b => if b then "True" else "False"
  | .num q => numStr q
  | .str s => s
  | .arr l => "[" ++ pyReprList l ++ "]"
  | .obj l => "\x7b" ++ pyReprObj l ++ "\x7d"

/-- Python `repr(x)`: like `str` but strings are quoted. -/
def pyRepr : Json → String
  | .str s => quoteStr s
  | .null => "None"
  | .bool b => if b then "True" else "False"
  | .num q => numStr q
  | .arr l => "[" ++ pyReprList l ++ "]"
  | .obj l => "\x7b" ++ pyReprObj l ++ "\x7d"

/-- Comma-separated `repr` of list members. -/
def pyReprList : List Json → String
  | [] => ""
  | [x] => pyRepr x
  | x :: xs => pyRepr x ++ ", " ++ pyReprList xs

/-- Comma-separated `key: repr(value)` pairs of a dict. -/
def pyReprObj : List (String × Json) → String
  | [] => ""
  | [kv] => quoteStr kv.1 ++ ": " ++ pyRepr kv.2
  | kv :: rest => quoteStr kv.1 ++ ": " ++ pyRepr kv.2 ++ ", " ++ pyReprObj rest

end

/-! ## RawProductData and ProductData (src/validators/models.py) -/

/-- `RawProductData` after pydantic validation. -/
structure RawRecord : Type where
  name : String
  sku : String
  price : Option String
  stockStatus : Option String
  rawJson : Json

/-- `RawProductData(...)` construction: pydantic runs, per field, the Field
length constraints and then the custom validator; any failure raises (modelled
as `none`).  Field order is declaration order. -/
def rawProductMk (name sku : String) (price stockStatus : Option String)
    (rawJson : Json) : Option RawRecord :=
  -- name: Field(min_length=1, max_length=500), then validate_name
  if name.length < 1 ∨ 500 < name.length then none
  else if name = "" ∨ pyStrip name = "" then none
  else
    let cleanedName := collapseWSStr name
    if 500 < cleanedName.length then none
    else
      -- sku: Field(min_length=1, max_length=100), then validate_sku
      if sku.length < 1 ∨ 100 < sku.length then none
      else if sku = "" ∨ pyStrip sku = "" then none
      else
        let cleanedSku := pyUpper (pyStrip sku)
        if 100 < cleanedSku.length then none
        else
          -- price: validate_price_string
          let priceOut : Option (Option String) :=
            match price with
            | none => some none
            | some p =>
              let ps := pyStrip p
              if ps = "" then some none
              else if 50 < ps.length then none
              else some (some ps)
          match priceOut with
          | none => none
          | some priceVal =>
            some ⟨cleanedName, cleanedSku, priceVal, stockStatus, rawJson⟩

/-- `ProductData` after pydantic validation. -/
structure ProductData : Type where
  name : String
  sku : String
  priceThb : ℚ
  stockStatus : String
  deriving DecidableEq

/-- Keep the characters `re.sub(r'[^\w\-_]', '', _)` keeps: word characters
and the hyphen. -/
def keepWordChars (s : String) : String :=
  String.mk (s.data.filter (fun c => pyWordChar c || c = '-'))

/-- `ProductData.validate_and_clean_name`: collapse whitespace, replace
double-quote/newline/CR/tab by spaces, re-collapse, require ≥ 2 characters,
truncate with an ellipsis above 500. -/
def validateAndCleanName (v : String) : Option String :=
  if v = "" ∨ pyStrip v = "" then none
  else
    let cleaned := collapseWSStr v
    let cleaned := String.mk (cleaned.data.map (fun c =>
      if c = Char.ofNat 34 || c = Char.ofNat 10 || c = Char.ofNat 13 ||
          c = Char.ofNat 9 then ' ' else c))
    let cleaned := collapseWSStr cleaned
    if cleaned.length < 2 then none
    else if 500 < cleaned.length then
      some (String.mk (cleaned.data.take 497) ++ "...")
    else some cleaned

/-- `ProductData.validate_and_normalize_sku`: strip + uppercase, drop
non-word characters, fail when empty, bound the length. -/
def validateAndNormalizeSku (v : String) : Option String :=
  if v = "" ∨ pyStrip v = "" then none
  else
    let normalized := keepWordChars (pyUpper (pyStrip v))
    if normalized = "" then none
    else if 100 < normalized.length then none
    else some normalized

/-- `ProductData.validate_price_value`: reject negative and > 1,000,000,
re-round to 2 decimals. -/
def validatePriceValue (v : ℚ) : Option ℚ :=
  if v < 0 then none
  else if 1000000 < v then none
  else some (round2 v)

/-- `ProductData(...)` construction: Field constraints then the custom
validators, in field declaration order (name, sku, price_thb, stock_status).
The stock-status validator delegates to `StockStatusNormalizer`. -/
def productDataMk (name sku : String) (priceThb : ℚ) (stockStatus : String) :
    Option ProductData :=
  if name.length < 2 ∨ 500 < name.length then none
  else
    match validateAndCleanName name with
    | none => none
    | some cleanName =>
      if sku.length < 1 ∨ 100 < sku.length then none
      else
        match validateAndNormalizeSku sku with
        | none => none
        | some cleanSku =>
          if priceThb < 0 then none
          else
            match validatePriceValue priceThb with
            | none => none
            | some priceVal =>
              let stockVal :=
                if stockStatus = "" then "Unknown"
                else normalizeStockStatus (some stockStatus)
              some ⟨cleanName, cleanSku, priceVal, stockVal⟩

/-! ## PowerBuyJSONParser (src/parsers/powerbuy_parser.py) -/

/-- `_extract_product_name` / `_extract_product_sku`: first field that is
present and truthy wins, stringified and stripped; otherwise the empty
string.  Possible `TypeError`s (non-dict candidates) propagate. -/
def extractStrField (fields : List String) (j : Json) : Except PyErr String :=
  match fields with
  | [] => .ok ""
  | f :: rest => do
    let b ← pyIn f j
    if b then do
      let v ← pyGet f j
      if pyTruthy v then pure (pyStrip (pyStr v)) else extractStrField rest j
    else extractStrField rest j

/-- The name fields tried by `_extract_product_name`. -/
def nameFields : List String := ["name", "title", "product_name", "productName"]

/-- The SKU fields tried by `_extract_product_sku`. -/
def skuFields : List String := ["sku", "id", "product_id", "productId", "code", "product_code"]

/-- Shared helper for the `is not None` field loops: first field that is
present with a non-`None` value wins, stringified (not stripped). -/
def extractNonNoneField (fields : List String) (j : Json) :
    Except PyErr (Option String) :=
  match fields with
  | [] => .ok none
  | f :: rest => do
    let b ← pyIn f j
    if b then do
      let v ← pyGet f j
      match v with
      | .null => extractNonNoneField rest j
      | _ => pure (some (pyStr v))
    else extractNonNoneField rest j

/-- `_extract_product_price`: a nested price dict is consulted first
(`selling`/`current`/`sale`/`final`), then the direct fields. -/
def extractProductPrice (j : Json) : Except PyErr (Option String) := do
  let b ← pyIn "price" j
  let nested : Option String ←
    if b then do
      let pv ← pyGet "price" j
      match pv with
      | .obj _ => extractNonNoneField ["selling", "current", "sale", "final"] pv
      | _ => pure none
    else pure none
  match nested with
  | some s => pure (some s)
  | none => extractNonNoneField ["price", "selling_price", "current_price", "sale_price"] j

/-- `_extract_stock_status`: direct fields first (including `stock`, even when
it holds a dict, which then stringifies), then a nested `stock` dict. -/
def extractStockStatus (j : Json) : Except PyErr (Option String) := do
  let direct ← extractNonNoneField ["stock_status", "stock", "availability", "available"] j
  match direct with
  | some s => pure (some s)
  | none => do
    let b ← pyIn "stock" j
    if b then do
      let sv ← pyGet "stock" j
      match sv with
      | .obj _ => extractNonNoneField ["status", "availability", "available"] sv
      | _ => pure none
    else pure none

/-- `_extract_single_product`: pull the fields, drop candidates with neither
name nor SKU, default the missing one, and build a `RawProductData`; every
internal exception (including a pydantic validation error) is caught and
yields `None`. -/
def extractSingleProduct (ts : String) (j : Json) : Option RawRecord :=
  let body : Except PyErr (Option RawRecord) := do
    let name ← extractStrField nameFields j
    let sku ← extractStrField skuFields j
    if name = "" ∧ sku = "" then pure none
    else do
      let price ← extractProductPrice j
      let stock ← extractStockStatus j
      pure (rawProductMk
        (if name = "" then "Unknown Product" else name)
        (if sku = "" then "UNKNOWN_" ++ ts else sku)
        price stock j)
  match body with
  | .ok r => r
  | .error _ => none

/-- `_extract_from_products_array`: per-item extraction, `found`/`errors`
counting; a `None` result counts as an item error. -/
def extractFromProductsArray (ts : String) (items : List Json) :
    List RawRecord × ℕ × ℕ :=
  items.foldl
    (fun acc item =>
      match extractSingleProduct ts item with
      | some p => (acc.1 ++ [p], acc.2.1 + 1, acc.2.2)
      | none => (acc.1, acc.2.1, acc.2.2 + 1))
    ([], 0, 0)

/-- `_is_single_product`: does any product-indicator key occur? -/
def isSingleProduct (j : Json) : Except PyErr Bool := do
  let checks := ["name", "sku", "price", "title", "product_name"]
  checks.foldlM (fun acc f => do
    let b ← pyIn f j
    pure (acc || b)) false

/-- The body of `extract_products_from_json`'s `try` block: ordered dispatch
over the four recognised document shapes, else the unrecognised-structure
warning.  The result is `(records, warned_unrecognized, item_errors)`. -/
def extractBody (ts : String) (j : Json) :
    Except PyErr (List RawRecord × Bool × ℕ) := do
  -- `'products' in json_data and isinstance(json_data['products'], list)`
  let b1 ← pyIn "products" j
  let shape1 : Option (List Json) ←
    if b1 then do
      let v ← pyGet "products" j
      pure (match v with | .arr l => some l | _ => none)
    else pure none
  match shape1 with
  | some items =>
    let r := extractFromProductsArray ts items
    pure (r.1, false, r.2.2)
  | none => do
    -- `'data' in json_data and isinstance(json_data['data'], dict)
    --  and 'products' in json_data['data']`
    let b2 ← pyIn "data" j
    let shape2 : Option Json ←
      if b2 then do
        let d ← pyGet "data" j
        if d.isObj then do
          let b2b ← pyIn "products" d
          if b2b then do
            let pv ← pyGet "products" d
            pure (some pv)
          else pure none
        else pure none
      else pure none
    match shape2 with
    | some pv => do
      let items ← pyIter pv
      let r := extractFromProductsArray ts items
      pure (r.1, false, r.2.2)
    | none =>
      match j with
      | .arr items =>
        let r := extractFromProductsArray ts items
        pure (r.1, false, r.2.2)
      | _ => do
        let single ← isSingleProduct j
        if single then
          match extractSingleProduct ts j with
          | some p => pure ([p], false, 0)
          | none => pure ([], false, 0)
        else
          pure ([], true, 0)

/-- Result of one `extract_products_from_json` call, as observable by the
caller. -/
structure ExtractResult : Type where
  records : List RawRecord
  warnedUnrecognized : Bool
  caughtCritical : Bool
  itemErrors : ℕ

/-- `PowerBuyJSONParser.extract_products_from_json`: the `try` body with the
catch-all `except Exception` that logs the error and falls through to
`return products` (the accumulator is still empty whenever the body can
raise).  The `Except` result type records what a caller can observe: an
uncaught exception would surface as `.error`. -/
def extractProductsFromJson (ts : String) (j : Json) :
    Except PyErr ExtractResult :=
  match extractBody ts j with
  | .ok r => .ok ⟨r.1, r.2.1, false, r.2.2⟩
  | .error _ => .ok ⟨[], false, true, 0⟩

/-- The record list a caller of `extract_products_from_json` receives. -/
def extractRecs (ts : String) (j : Json) : List RawRecord :=
  match extractProductsFromJson ts j with
  | .ok r => r.records
  | .error _ => []

/-! ## DataTransformer (src/parsers/powerbuy_parser.py) -/

/-- `DataTransformer._clean_product_name`: falsy → placeholder; collapse
whitespace; below two characters substitute a placeholder instead of
failing. -/
def cleanProductName (name : String) : String :=
  if name = "" then "Unknown Product"
  else
    let cleaned := collapseWSStr name
    if cleaned.length < 2 then
      (if cleaned = "" then "Unknown Product" else "Product " ++ cleaned)
    else cleaned

/-- `DataTransformer._clean_product_sku`: falsy or empty after strip →
synthetic `UNKNOWN_<timestamp>` SKU; otherwise strip + uppercase. -/
def cleanProductSku (ts : String) (sku : String) : String :=
  if sku = "" then "UNKNOWN_" ++ ts
  else
    let cleaned := pyUpper (pyStrip sku)
    if cleaned.length < 1 then "UNKNOWN_" ++ ts
    else cleaned

/-- `DataTransformer._normalize_stock_status`: the transformer's own inline
normalisation.  In-stock indicators are tested FIRST here (unlike
`StockStatusNormalizer`, which tests out-of-stock first). -/
def dtInStockIndicators : List String :=
  [ "in stock", "available", "มีสินค้า", "พร้อมส่ง", "มีของ",
    "in_stock", "instock", "yes", "true", "1" ]

/-- Out-of-stock indicator substrings of `DataTransformer._normalize_stock_status`. -/
def dtOutOfStockIndicators : List String :=
  [ "out of stock", "unavailable", "หมด", "สินค้าหมด", "ไม่มีสินค้า",
    "out_of_stock", "outofstock", "no", "false", "0" ]

/-- `DataTransformer._normalize_stock_status`. -/
def dtNormalizeStockStatus (stockStatus : Option String) : String :=
  match stockStatus with
  | none => "Unknown"
  | some s =>
    if s = "" then "Unknown"
    else
      let statusLower := pyLower (pyStrip s)
      if dtInStockIndicators.any (fun ind => pyInStr ind statusLower) then "In Stock"
      else if dtOutOfStockIndicators.any (fun ind => pyInStr ind statusLower) then "Out of Stock"
      else "Unknown"

/-- `DataTransformer._parse_and_validate_price` (the range check only logs a
warning, so only the parse result matters): a `None` price fails, otherwise
`PriceParser.parse_price` runs. -/
def parseAndValidatePrice (price : Option String) : Except String ℚ :=
  match price with
  | none => .error "Price parsing failed: Price is None"
  | some p => parsePrice (.pStr p)

/-- `DataTransformer._transform_single_product`: price, name, SKU, stock
normalisation, then `ProductData` construction (whose pydantic validators can
raise, failing the record). -/
def transformSingleProduct (ts : String) (raw : RawRecord) :
    Except String ProductData :=
  match parseAndValidatePrice raw.price with
  | .error e => .error e
  | .ok priceThb =>
    let cleanedName := cleanProductName raw.name
    let cleanedSku := cleanProductSku ts raw.sku
    let normalizedStock := dtNormalizeStockStatus raw.stockStatus
    match productDataMk cleanedName cleanedSku priceThb normalizedStock with
    | none => .error "ProductData validation failed"
    | some p => .ok p

/-- One step of `transform_to_product_data`'s loop. -/
def transformStep (ts : String) (acc : List ProductData × ℕ × List String)
    (raw : RawRecord) : List ProductData × ℕ × List String :=
  match transformSingleProduct ts raw with
  | .ok p => (acc.1 ++ [p], acc.2.1, acc.2.2)
  | .error e => (acc.1, acc.2.1 + 1, acc.2.2 ++ [e])

/-- `DataTransformer.transform_to_product_data`: per-record transformation,
collecting successes and counting failures with their messages. -/
def transformToProductData (ts : String) (raws : List RawRecord) :
    List ProductData × ℕ × List String :=
  raws.foldl (transformStep ts) ([], 0, [])

/-! ## DataProducer (src/producers/data_producer.py) -/

/-- One JSON input file: a name, a byte size and the outcome of `json.load`
(`none` when the file cannot be read, decoded or parsed). -/
structure InputFile : Type where
  name : String
  size : ℕ
  content : Option Json

/-- The mutable `self.stats` dictionary (fields the claims concern). -/
structure ProducerStats : Type where
  filesProcessed : ℕ := 0
  filesFailed : ℕ := 0
  productsExtracted : ℕ := 0
  successfulValidations : ℕ := 0
  validationFailures : ℕ := 0
  errors : List String := []
  warnings : List String := []

/-- `DataProducer._load_single_json_file`: the 100 MB size guard, the parse,
the dict-or-list structure check, and the provenance metadata (`_source_file`,
`_processed_at`, `_file_size`); a bare list is wrapped into a `products`
dict. -/
def loadSingleJsonFile (ts : String) (f : InputFile) : Except String Json :=
  if 100 * 1024 * 1024 < f.size then .error "File too large"
  else
    match f.content with
    | none => .error "Invalid JSON format"
    | some fileData =>
      match fileData with
      | .obj l =>
        .ok (.obj (objSet (objSet (objSet l
          "_source_file" (.str f.name))
          "_processed_at" (.str ts))
          "_file_size" (.num f.size)))
      | .arr l =>
        .ok (.obj [("products", .arr l), ("_source_file", .str f.name),
          ("_processed_at", .str ts), ("_file_size", .num f.size)])
      | _ => .error "Invalid JSON structure (not dict or list)"

/-- One step of `load_raw_data`'s per-file loop. -/
def loadStep (ts : String) (acc : List Json × ProducerStats) (f : InputFile) :
    List Json × ProducerStats :=
  match loadSingleJsonFile ts f with
  | .ok doc =>
    (acc.1 ++ [doc], { acc.2 with filesProcessed := acc.2.filesProcessed + 1 })
  | .error e =>
    (acc.1, { acc.2 with
      filesFailed := acc.2.filesFailed + 1
      errors := acc.2.errors ++ [e] })

/-- `DataProducer.load_raw_data` over an already-listed set of JSON files:
per-file loading with the failure counted and the error logged; loading
continues with the remaining files. -/
def loadRawData (ts : String) (files : List InputFile) (stats : ProducerStats) :
    List Json × ProducerStats :=
  files.foldl (loadStep ts) ([], stats)

/-- One step of `process_products`'s per-document loop: extract, then extend
the accumulator or log the no-products warning. -/
def processStep (ts : String) (acc : List RawRecord × ProducerStats)
    (doc : Json) : List RawRecord × ProducerStats :=
  let products := extractRecs ts doc
  if products.isEmpty then
    (acc.1, { acc.2 with warnings := acc.2.warnings ++ ["No products found"] })
  else (acc.1 ++ products, acc.2)

/-- `DataProducer.process_products`: run the extractor on every loaded
document (every loaded document is a dict, so the isinstance guard never
raises); files yielding no products log a warning. -/
def processProducts (ts : String) (rawData : List Json) (stats : ProducerStats) :
    List RawRecord × ProducerStats :=
  let run := rawData.foldl (processStep ts) ([], stats)
  (run.1, { run.2 with productsExtracted := run.1.length })

/-- `DataProducer.validate_data`: run the transformer, record the success and
failure counts and append the transformer's error details. -/
def validateData (ts : String) (rawProducts : List RawRecord)
    (stats : ProducerStats) : List ProductData × ProducerStats :=
  let r := transformToProductData ts rawProducts
  (r.1, { stats with
    successfulValidations := r.1.length
    validationFailures := r.2.1
    errors := stats.errors ++ r.2.2 })

/-- `DataProducer.export_csv`, abstracted over the filesystem: fails when the
product list is empty, otherwise the CSV write is modelled as succeeding and
the output path is returned. -/
def exportCsv (products : List ProductData) (outputPath : String) :
    Except String String :=
  if products.isEmpty then .error "No products provided for CSV export"
  else .ok outputPath

/-- `DataProducer.process_complete_pipeline`: load → extract → validate →
export, with the three emptiness guards raising a fatal `RuntimeError`.
Returns the validated products next to the output path so the batch output
is inspectable. -/
def processCompletePipeline (ts outputPath : String) (files : List InputFile) :
    Except String (String × List ProductData × ProducerStats) × ProducerStats :=
  let load := loadRawData ts files {}
  let rawData := load.1
  let stats₁ := load.2
  if rawData.isEmpty then
    (.error "No raw data loaded - cannot proceed with pipeline", stats₁)
  else
    let extract := processProducts ts rawData stats₁
    let rawProducts := extract.1
    let stats₂ := extract.2
    if rawProducts.isEmpty then
      (.error "No products extracted - cannot proceed with pipeline", stats₂)
    else
      let validate := validateData ts rawProducts stats₂
      let validated := validate.1
      let stats₃ := validate.2
      if validated.isEmpty then
        (.error "No products validated - cannot proceed with pipeline", stats₃)
      else
        match exportCsv validated outputPath with
        | .error e => (.error e, stats₃)
        | .ok path => (.ok (path, validated, stats₃), stats₃)

/-- Does a file fail `_load_single_json_file` (malformed in the sense of the
batch partial-failure property)? -/
def fileMalformed (ts : String) (f : InputFile) : Bool :=
  match loadSingleJsonFile ts f with
  | .ok _ => false
  | .error _ => true

/-! ## Concrete batch inputs used to exhibit the batch properties -/

/-- A well-formed search-result document with one valid product. -/
def goodDoc : Json :=
  .obj [("products", .arr [.obj
    [("name", .str "Galaxy S24 Ultra"), ("sku", .str "295649"),
     ("price", .num 30400)]])]

/-- A two-file batch: one unparseable file, one good file. -/
def demoFiles : List InputFile :=
  [⟨"corrupt.json", 10, none⟩, ⟨"page_1.json", 200, some goodDoc⟩]

/-- `goodDoc` after `_load_single_json_file` adds provenance metadata. -/
def goodDocLoaded : Json :=
  .obj [("products", .arr [.obj
    [("name", .str "Galaxy S24 Ultra"), ("sku", .str "295649"),
     ("price", .num 30400)]]),
    ("_source_file", .str "page_1.json"), ("_processed_at", .str "TS"),
    ("_file_size", .num 200)]

/-- The raw record extracted from `goodDoc`. -/
def goodRaw : RawRecord :=
  ⟨"Galaxy S24 Ultra", "295649", some "30400", none,
   .obj [("name", .str "Galaxy S24 Ultra"), ("sku", .str "295649"),
     ("price", .num 30400)]⟩

end BkkGadgetHub

deriving instance DecidableEq for Except

namespace BkkGadgetHub

/-! ## Supporting lemmas -/

theorem normalizeStockStatus_total (s : Option String) :
    normalizeStockStatus s = "In Stock" ∨ normalizeStockStatus s = "Out of Stock" ∨
      normalizeStockStatus s = "Unknown" := by
  cases s with
  | none => simp [normalizeStockStatus]
  | some v =>
    simp only [normalizeStockStatus]
    split
    · simp
    · split
      · simp
      · split <;> simp

theorem char_toNat_inj {a b : Char} (h : a.toNat = b.toNat) : a = b := by
  apply Char.ext
  apply UInt32.ext
  exact h

theorem charOfNat_toNat {n : ℕ} (h : n < 0xd800) : (Char.ofNat n).toNat = n := by
  unfold Char.ofNat
  rw [dif_pos (Or.inl h)]
  rfl

theorem pyIsWS_true_iff (c : Char) :
    pyIsWS c = true ↔
      c.toNat = 32 ∨ c.toNat = 9 ∨ c.toNat = 10 ∨ c.toNat = 13 ∨
      c.toNat = 11 ∨ c.toNat = 12 := by
  unfold pyIsWS
  simp only [Bool.or_eq_true, decide_eq_true_eq]
  constructor
  · rintro (((((h | h) | h) | h) | h) | h) <;> subst h <;> simp [Char.toNat]
  · rintro (h | h | h | h | h | h) <;>
      first
      | (left; left; left; left; left; exact char_toNat_inj (by simpa using h))
      | (left; left; left; left; right; exact char_toNat_inj (by rw [h]; rfl))
      | (left; left; left; right; exact char_toNat_inj (by rw [h]; rfl))
      | (left; left; right; exact char_toNat_inj (by rw [h]; rfl))
      | (left; right; exact char_toNat_inj (by rw [h]; rfl))
      | (right; exact char_toNat_inj (by rw [h]; rfl))

theorem toNat_pyUpperChar (c : Char) :
    (pyUpperChar c).toNat =
      if 97 ≤ c.toNat ∧ c.toNat ≤ 122 then c.toNat - 32 else c.toNat := by
  unfold pyUpperChar
  split
  · next h => exact charOfNat_toNat (by omega)
  · next h => rfl

theorem pyIsWS_pyUpperChar (c : Char) : pyIsWS (pyUpperChar c) = pyIsWS c := by
  by_cases h : 97 ≤ c.toNat ∧ c.toNat ≤ 122
  · have ht : (pyUpperChar c).toNat = c.toNat - 32 := by rw [toNat_pyUpperChar, if_pos h]
    have h1 : pyIsWS (pyUpperChar c) = false := by
      rw [← Bool.not_eq_true, pyIsWS_true_iff, ht]
      omega
    have h2 : pyIsWS c = false := by
      rw [← Bool.not_eq_true, pyIsWS_true_iff]
      omega
    rw [h1, h2]
  · unfold pyUpperChar
    rw [if_neg h]

theorem pyUpperChar_idem (c : Char) : pyUpperChar (pyUpperChar c) = pyUpperChar c := by
  by_cases h : 97 ≤ c.toNat ∧ c.toNat ≤ 122
  · have ht : (pyUpperChar c).toNat = c.toNat - 32 := by rw [toNat_pyUpperChar, if_pos h]
    show (if 97 ≤ (pyUpperChar c).toNat ∧ (pyUpperChar c).toNat ≤ 122 then _
      else pyUpperChar c) = pyUpperChar c
    rw [if_neg (by omega)]
  · have hc : pyUpperChar c = c := by unfold pyUpperChar; rw [if_neg h]
    rw [hc, hc]

theorem dropWhile_map_of_pres (f : Char → Char) (p : Char → Bool)
    (hp : ∀ c, p (f c) = p c) :
    ∀ l : List Char, List.dropWhile p (l.map f) = (List.dropWhile p l).map f := by
  intro l
  induction l with
  | nil => rfl
  | cons c t ih =>
    simp only [List.map_cons, List.dropWhile_cons, hp]
    split <;> simp [ih]

theorem pyStripL_map_of_pres (f : Char → Char)
    (hf : ∀ c, pyIsWS (f c) = pyIsWS c) (l : List Char) :
    pyStripL (l.map f) = (pyStripL l).map f := by
  unfold pyStripL lstripL
  rw [dropWhile_map_of_pres f pyIsWS hf, ← List.map_reverse,
    dropWhile_map_of_pres f pyIsWS hf, ← List.map_reverse]

theorem pyStrip_pyUpper (s : String) : pyStrip (pyUpper s) = pyUpper (pyStrip s) := by
  unfold pyStrip pyUpper
  rw [show (String.mk (s.data.map pyUpperChar)).data = s.data.map pyUpperChar from rfl,
    pyStripL_map_of_pres pyUpperChar pyIsWS_pyUpperChar]

theorem pyUpper_idem (s : String) : pyUpper (pyUpper s) = pyUpper s := by
  unfold pyUpper
  simp [List.map_map, Function.comp_def, pyUpperChar_idem]

theorem dropWhile_head_false (p : Char → Bool) :
    ∀ (l : List Char) c t, List.dropWhile p l = c :: t → p c = false := by
  intro l
  induction l with
  | nil => intro c t h; cases h
  | cons a rest ih =>
    intro c t h
    rw [List.dropWhile_cons] at h
    by_cases hp : p a = true
    · rw [if_pos hp] at h
      exact ih c t h
    · rw [if_neg hp] at h
      cases h
      exact Bool.eq_false_iff.mpr hp

theorem dropWhile_of_head_false (p : Char → Bool) (c : Char) (t : List Char)
    (h : p c = false) : List.dropWhile p (c :: t) = c :: t := by
  rw [List.dropWhile_cons, if_neg (by simp [h])]

theorem pyStripL_idem (l : List Char) : pyStripL (pyStripL l) = pyStripL l := by
  have hsuff : List.dropWhile pyIsWS ((lstripL l).reverse) <:+ (lstripL l).reverse :=
    List.dropWhile_suffix pyIsWS
  have hpre : pyStripL l <+: lstripL l := by
    unfold pyStripL
    rw [← List.reverse_reverse (lstripL l)]
    exact (List.reverse_prefix).mpr (by simpa using hsuff)
  have hl : lstripL (pyStripL l) = pyStripL l := by
    cases hx : pyStripL l with
    | nil => rfl
    | cons c t =>
      obtain ⟨u, hu⟩ := hpre
      rw [hx] at hu
      have hla : lstripL l = c :: (t ++ u) := by rw [← hu]; rfl
      have hc : pyIsWS c = false := dropWhile_head_false pyIsWS l c (t ++ u) hla
      exact dropWhile_of_head_false pyIsWS c t hc
  have hdef : ∀ x, pyStripL x = (List.dropWhile pyIsWS ((lstripL x).reverse)).reverse :=
    fun x => rfl
  have hrev : (pyStripL l).reverse = List.dropWhile pyIsWS ((lstripL l).reverse) := by
    rw [hdef l]
    simp
  rw [hdef (pyStripL l), hl]
  cases hr : List.dropWhile pyIsWS ((lstripL l).reverse) with
  | nil =>
    rw [hrev, hr, hdef l, hr]
    rfl
  | cons c t =>
    have hc : pyIsWS c = false := dropWhile_head_false pyIsWS _ c t hr
    rw [hrev, hr, dropWhile_of_head_false pyIsWS c t hc, hdef l, hr]

theorem pyStrip_idem (s : String) : pyStrip (pyStrip s) = pyStrip s := by
  unfold pyStrip
  rw [show (String.mk (pyStripL s.data)).data = pyStripL s.data from rfl, pyStripL_idem]

theorem string_mk_eq_empty {l : List Char} : String.mk l = "" ↔ l = [] := by
  constructor
  · intro h
    exact congrArg String.data h
  · intro h
    rw [h]

theorem pyUpper_length (s : String) : (pyUpper s).length = s.length := by
  show (s.data.map pyUpperChar).length = s.data.length
  exact List.length_map s.data pyUpperChar

theorem validateAndCleanName_length {v out : String}
    (h : validateAndCleanName v = some out) : 2 ≤ out.length := by
  simp only [validateAndCleanName] at h
  split at h
  · cases h
  · split at h
    · cases h
    · split at h
      · cases h
        next h2 h3 =>
        simp only [String.length_append]
        simp only [String.length]
        simp
      · cases h
        next h2 h3 => omega

theorem validateAndNormalizeSku_ne {v out : String}
    (h : validateAndNormalizeSku v = some out) : ¬ out = "" := by
  simp only [validateAndNormalizeSku] at h
  split at h
  · cases h
  · split at h
    · cases h
    · split at h
      · cases h
      · cases h
        next h2 h3 => exact h2

theorem productDataMk_inv {n s : String} {q : ℚ} {st : String} {p : ProductData}
    (h : productDataMk n s q st = some p) :
    validateAndCleanName n = some p.name ∧
    validateAndNormalizeSku s = some p.sku := by
  simp only [productDataMk] at h
  split at h
  · cases h
  · split at h
    · cases h
    · next cleanName hname =>
      split at h
      · cases h
      · split at h
        · cases h
        · next cleanSku hsku =>
          split at h
          · cases h
          · split at h
            · cases h
            · next priceVal hprice =>
              cases h
              exact ⟨hname, hsku⟩

theorem transformSingleProduct_ok {ts : String} {raw : RawRecord} {p : ProductData}
    (h : transformSingleProduct ts raw = .ok p) :
    ∃ q, parseAndValidatePrice raw.price = .ok q ∧
      productDataMk (cleanProductName raw.name) (cleanProductSku ts raw.sku) q
        (dtNormalizeStockStatus raw.stockStatus) = some p := by
  simp only [transformSingleProduct] at h
  split at h
  · cases h
  · next q hq =>
    split at h
    · cases h
    · next hmk =>
      cases h
      exact ⟨q, hq, hmk⟩

theorem productDataMk_of_sku_none {n s : String} {q : ℚ} {st : String}
    (h : validateAndNormalizeSku s = none) : productDataMk n s q st = none := by
  simp only [productDataMk]
  split
  · rfl
  · split
    · rfl
    · split
      · rfl
      · rw [h]

/-! ## Claim theorems -/

/-- C5: stock-status normalization is total and closed over
`{In Stock, Out of Stock, Unknown}`, and the enumerated inputs map to the
enumerated outputs (`มีสินค้า` → In Stock, `หมด` → Out of Stock, empty and
`None` → Unknown). -/
theorem stock_normalization_total_and_closed :
    (∀ s : Option String,
      normalizeStockStatus s = "In Stock" ∨ normalizeStockStatus s = "Out of Stock" ∨
        normalizeStockStatus s = "Unknown") ∧
    normalizeStockStatus (some "มีสินค้า") = "In Stock" ∧
    normalizeStockStatus (some "หมด") = "Out of Stock" ∧
    normalizeStockStatus (some "") = "Unknown" ∧
    normalizeStockStatus none = "Unknown" :=
  ⟨normalizeStockStatus_total, by decide, by decide, by decide, by decide⟩

/-- C6: price parsing reproduces every enumerated example: the comma and
currency formats, the multi-dot repair of `"1.234.50"`, and the enumerated
failures for `-1`, the empty string and `None`. -/
theorem price_parsing_enumerated_cases :
    parsePrice (.pStr "1,234,567.89") = .ok (1234567.89 : ℚ) ∧
    parsePrice (.pStr " ฿ 1,234.50 THB ") = .ok (1234.50 : ℚ) ∧
    parsePrice (.pStr "1,234.50") = .ok (1234.50 : ℚ) ∧
    parsePrice (.pStr "฿999") = .ok (999 : ℚ) ∧
    cleanPriceString "1.234.50" = "1234.50" ∧
    parsePrice (.pStr "1.234.50") = .ok (1234.50 : ℚ) ∧
    (parsePrice (.pInt (-1))).isOk = false ∧
    (parsePrice (.pStr "")).isOk = false ∧
    (parsePrice .pNone).isOk = false := by
  refine ⟨by decide, by decide, by decide, by decide, by decide, by decide, ?_, ?_, ?_⟩
  · decide
  · decide
  · decide

/-- C1 counterexample: on the pipeline's record-transformation path the
phrase `temporarily unavailable` matches both indicator sets (and both
`StockStatusNormalizer` pattern sets), yet `DataTransformer` classifies it
In Stock — its `_normalize_stock_status` tests the in-stock set first, and
the full record transformation keeps that classification. -/
theorem transform_path_dual_match_in_stock :
    dtInStockIndicators.any
      (fun ind => pyInStr ind (pyLower (pyStrip "temporarily unavailable"))) = true ∧
    dtOutOfStockIndicators.any
      (fun ind => pyInStr ind (pyLower (pyStrip "temporarily unavailable"))) = true ∧
    matchesPatterns (cleanStatusString "temporarily unavailable") outOfStockPatterns = true ∧
    matchesPatterns (cleanStatusString "temporarily unavailable") inStockPatterns = true ∧
    dtNormalizeStockStatus (some "temporarily unavailable") = "In Stock" ∧
    transformSingleProduct "20250101"
      ⟨"Test Product", "ABC123", some "100", some "temporarily unavailable", .null⟩ =
      .ok ⟨"Test Product", "ABC123", 100, "In Stock"⟩ := by
  refine ⟨by decide, by decide, by decide, by decide, by decide, ?_⟩
  decide

/-- C1 amended: `StockStatusNormalizer.normalize_stock_status` does test the
out-of-stock pattern set first, so any input matching it is Out of Stock
there; but the record-transformation path uses
`DataTransformer._normalize_stock_status`, which tests the in-stock
indicators first, so a dual-matching phrase is classified In Stock on that
path. -/
theorem stock_ordering_differs_between_layers :
    (∀ s : String, ¬ s = "" →
      matchesPatterns (cleanStatusString s) outOfStockPatterns = true →
      normalizeStockStatus (some s) = "Out of Stock") ∧
    (∀ s : String, ¬ s = "" →
      dtInStockIndicators.any (fun ind => pyInStr ind (pyLower (pyStrip s))) = true →
      dtNormalizeStockStatus (some s) = "In Stock") := by
  constructor
  · intro s hs hm
    simp [normalizeStockStatus, hs, hm]
  · intro s hs hm
    simp [dtNormalizeStockStatus, hs, hm]

/-- Witness for the amended C1 theorem at `temporarily unavailable`. -/
theorem stock_ordering_differs_between_layers_witness :
    normalizeStockStatus (some "temporarily unavailable") = "Out of Stock" ∧
    dtNormalizeStockStatus (some "temporarily unavailable") = "In Stock" :=
  ⟨stock_ordering_differs_between_layers.1 "temporarily unavailable"
      (by decide) (by decide),
   stock_ordering_differs_between_layers.2 "temporarily unavailable"
      (by decide) (by decide)⟩

/-- C2 counterexample: a raw record whose name cleans to the single
character `a` is not rejected by the record-transformation layer; the
placeholder name `Product a` is silently substituted and the record
succeeds. -/
theorem short_name_not_rejected :
    cleanProductName "a" = "Product a" ∧
    (collapseWSStr "a").length < 2 ∧
    transformSingleProduct "20250101" ⟨"a", "ABC123", some "100", none, .null⟩ =
      .ok ⟨"Product a", "ABC123", 100, "Out of Stock"⟩ := by
  refine ⟨by decide, by decide, ?_⟩
  decide

/-- C2 amended: at the record-transformation layer
`DataTransformer._clean_product_name` never raises on a short name — when
the whitespace-collapsed name is shorter than 2 characters it substitutes
`Unknown Product` (absent or whitespace-only name) or the `Product `-prefixed
placeholder; the reject-if-short-after-cleaning policy lives in the
`ProductData` model validator instead. -/
theorem clean_product_name_substitutes_placeholder :
    ∀ name : String, (collapseWSStr name).length < 2 →
      cleanProductName name =
        (if name = "" ∨ collapseWSStr name = "" then "Unknown Product"
         else "Product " ++ collapseWSStr name) := by
  intro name h
  by_cases hn : name = ""
  · simp [cleanProductName, hn, collapseWSStr, pyStripL, lstripL]
  · by_cases hc : collapseWSStr name = ""
    · simp [cleanProductName, hn, hc]
    · simp [cleanProductName, hn, hc, h]

/-- Witness for the amended C2 theorem at the one-character name `a`. -/
theorem clean_product_name_substitutes_placeholder_witness :
    cleanProductName "a" =
      (if ("a" : String) = "" ∨ collapseWSStr "a" = "" then "Unknown Product"
       else "Product " ++ collapseWSStr "a") :=
  clean_product_name_substitutes_placeholder "a" (by decide)

/-- C4 counterexample: the bare tokens are not whole-word protected — the
token `0` matches inside `100` and `no` matches inside `now`, so both inputs
are classified Out of Stock (the only out-of-stock pattern matching `100` in
any of the three ways is the bare token `0`). -/
theorem bare_tokens_match_inside_longer_strings :
    normalizeStockStatus (some "100") = "Out of Stock" ∧
    (∀ p ∈ outOfStockPatterns,
      (cleanStatusString "100" = pyLower p ∨
        pyInStr (pyLower p) (cleanStatusString "100") = true ∨
        wordBoundarySearch (pyLower p).data none (cleanStatusString "100").data = true) →
      p = "0") ∧
    normalizeStockStatus (some "now") = "Out of Stock" := by
  refine ⟨by decide, ?_, by decide⟩
  decide

/-- C4 amended: `_matches_patterns` applies its substring test to every
pattern, bare tokens included (the word-boundary branch only ever adds
matches for letters-and-space patterns), so a substring occurrence of any
pattern — e.g. `0` inside `100` — already classifies the input. -/
theorem substring_match_suffices :
    ∀ (status : String) (patterns : List String) (p : String),
      p ∈ patterns → pyInStr (pyLower p) status = true →
      matchesPatterns status patterns = true := by
  intro status patterns p hp hsub
  simp only [matchesPatterns, List.any_eq_true]
  exact ⟨p, hp, by simp [hsub]⟩

/-- Witness for the amended C4 theorem: the bare token `0` as a substring of
the cleaned input `100` makes the out-of-stock set match. -/
theorem substring_match_suffices_witness :
    matchesPatterns (cleanStatusString "100") outOfStockPatterns = true :=
  substring_match_suffices (cleanStatusString "100") outOfStockPatterns "0"
    (by decide) (by decide)

/-- C3: across the record transformation, SKU cleaning upper-cases the
(stripped) SKU and removes every character that is not a word character or a
hyphen; when that result is empty the record's transformation fails with an
error, and when it succeeds the validated SKU is exactly that result.  The
hypothesis (SKU non-empty after strip) is the `RawProductData` model
invariant every raw record satisfies. -/
theorem sku_cleaning_uppercase_strip_or_fail :
    ∀ (ts : String) (raw : RawRecord), ¬ pyStrip raw.sku = "" →
      (keepWordChars (pyUpper (pyStrip raw.sku)) = "" →
        ∃ e, transformSingleProduct ts raw = .error e) ∧
      (∀ p, transformSingleProduct ts raw = .ok p →
        p.sku = keepWordChars (pyUpper (pyStrip raw.sku))) := by
  intro ts raw h
  have hsku0 : ¬ raw.sku = "" := by
    intro he
    apply h
    rw [he]
    rfl
  have hlen : ¬ (pyUpper (pyStrip raw.sku)).length < 1 := by
    rw [pyUpper_length]
    have : ¬ (pyStrip raw.sku).length = 0 := by
      intro hz
      apply h
      have : (pyStrip raw.sku).data = [] := List.length_eq_zero.mp hz
      cases hp : pyStrip raw.sku with
      | mk l => rw [hp] at this; rw [string_mk_eq_empty]; exact this
    omega
  have hclean : cleanProductSku ts raw.sku = pyUpper (pyStrip raw.sku) := by
    simp only [cleanProductSku]
    rw [if_neg hsku0, if_neg hlen]
  have hstripU : pyStrip (pyUpper (pyStrip raw.sku)) = pyUpper (pyStrip raw.sku) := by
    rw [pyStrip_pyUpper, pyStrip_idem]
  have hUne : ¬ pyUpper (pyStrip raw.sku) = "" := by
    intro he
    rw [he] at hlen
    exact hlen (by decide)
  have hvns : validateAndNormalizeSku (pyUpper (pyStrip raw.sku)) =
      (if keepWordChars (pyUpper (pyStrip raw.sku)) = "" then none
       else if 100 < (keepWordChars (pyUpper (pyStrip raw.sku))).length then none
       else some (keepWordChars (pyUpper (pyStrip raw.sku)))) := by
    simp only [validateAndNormalizeSku]
    rw [if_neg (by
      intro hor
      cases hor with
      | inl h1 => exact hUne h1
      | inr h2 => rw [hstripU] at h2; exact hUne h2)]
    rw [hstripU, pyUpper_idem]
  constructor
  · intro hu
    simp only [transformSingleProduct]
    cases hp : parseAndValidatePrice raw.price with
    | error e => exact ⟨e, rfl⟩
    | ok q =>
      have hnone : productDataMk (cleanProductName raw.name) (cleanProductSku ts raw.sku) q
          (dtNormalizeStockStatus raw.stockStatus) = none := by
        apply productDataMk_of_sku_none
        rw [hclean, hvns, if_pos hu]
      dsimp only
      rw [hnone]
      exact ⟨"ProductData validation failed", rfl⟩
  · intro p hp
    obtain ⟨q, hq, hmk⟩ := transformSingleProduct_ok hp
    have hs := (productDataMk_inv hmk).2
    rw [hclean, hvns] at hs
    split at hs
    · cases hs
    · split at hs
      · cases hs
      · exact (Option.some.inj hs).symm

/-- Witness for C3: the SKU `!!!` strips to empty and the record fails; the
SKU `ab-1!` cleans to `AB-1` and the validated record carries exactly it. -/
theorem sku_cleaning_uppercase_strip_or_fail_witness :
    (∃ e, transformSingleProduct "20250101"
      ⟨"Test", "!!!", some "100", none, .null⟩ = .error e) ∧
    (⟨"Test", "AB-1", 100, "Out of Stock"⟩ : ProductData).sku =
      keepWordChars (pyUpper (pyStrip "ab-1!")) :=
  ⟨(sku_cleaning_uppercase_strip_or_fail "20250101"
      ⟨"Test", "!!!", some "100", none, .null⟩ (by decide)).1 (by decide),
   (sku_cleaning_uppercase_strip_or_fail "20250101"
      ⟨"Test", "ab-1!", some "100", none, .null⟩ (by decide)).2
      ⟨"Test", "AB-1", 100, "Out of Stock"⟩ (by rfl)⟩

/-- C10: every validated record the transformer produces has a name of at
least 2 characters and a non-empty SKU; a name that cleans below 2
characters receives the `Product `-prefixed placeholder (or
`Unknown Product` when absent/whitespace-only), and an absent SKU receives
the synthetic `UNKNOWN_`-prefixed SKU. -/
theorem transformer_output_name_sku_invariant :
    (∀ (ts : String) (raw : RawRecord) (p : ProductData),
      transformSingleProduct ts raw = .ok p →
        2 ≤ p.name.length ∧ ¬ p.sku = "") ∧
    (∀ name : String, ¬ name = "" → (collapseWSStr name).length < 2 →
      ¬ collapseWSStr name = "" →
      cleanProductName name = "Product " ++ collapseWSStr name) ∧
    (∀ name : String, name = "" ∨ collapseWSStr name = "" →
      cleanProductName name = "Unknown Product") ∧
    (∀ ts : String, cleanProductSku ts "" = "UNKNOWN_" ++ ts) := by
  refine ⟨?_, ?_, ?_, ?_⟩
  · intro ts raw p h
    obtain ⟨q, hq, hmk⟩ := transformSingleProduct_ok h
    obtain ⟨hn, hs⟩ := productDataMk_inv hmk
    exact ⟨validateAndCleanName_length hn, validateAndNormalizeSku_ne hs⟩
  · intro name h1 h2 h3
    simp [cleanProductName, h1, h2, h3]
  · intro name h
    cases h with
    | inl h1 => simp [cleanProductName, h1]
    | inr h2 =>
      by_cases h1 : name = ""
      · simp [cleanProductName, h1]
      · simp [cleanProductName, h1, h2]
  · intro ts
    simp [cleanProductSku]

theorem extractBody_warned {ts : String} {j : Json} {recs : List RawRecord} {errs : ℕ}
    (h : extractBody ts j = .ok (recs, true, errs)) : recs = [] := by
  simp only [extractBody, bind, Except.bind, pure, Except.pure] at h
  iterate 16 (all_goals (try split at h))
  all_goals (try cases h)
  all_goals rfl

/-- C8: extraction never throws — for every JSON document (any shape,
including scalars and type-mismatched structures) the caller observes a
normal return carrying a (possibly empty) record list, never an exception;
and whenever the unrecognised-structure warning is recorded, the record list
is empty. -/
theorem extraction_never_throws :
    ∀ (ts : String) (j : Json), ∃ r : ExtractResult,
      extractProductsFromJson ts j = .ok r ∧
      (r.warnedUnrecognized = true → r.records = []) := by
  intro ts j
  cases hb : extractBody ts j with
  | error e =>
    refine ⟨⟨[], false, true, 0⟩, ?_, ?_⟩
    · simp [extractProductsFromJson, hb]
    · intro hw
      simp at hw
  | ok r =>
    obtain ⟨recs, warned, errs⟩ := r
    refine ⟨⟨recs, warned, false, errs⟩, by simp [extractProductsFromJson, hb], ?_⟩
    intro hw
    show recs = []
    cases warned with
    | false => cases hw
    | true => exact extractBody_warned hb

/-- Witness for C10 at a concrete record, short name and empty SKU. -/
theorem transformer_output_name_sku_invariant_witness :
    (2 ≤ (⟨"Galaxy", "G1", 100, "Out of Stock"⟩ : ProductData).name.length ∧
      ¬ (⟨"Galaxy", "G1", 100, "Out of Stock"⟩ : ProductData).sku = "") ∧
    cleanProductName "a" = "Product " ++ collapseWSStr "a" ∧
    cleanProductName "  " = "Unknown Product" ∧
    cleanProductSku "20250101" "" = "UNKNOWN_" ++ "20250101" :=
  ⟨transformer_output_name_sku_invariant.1 "TS"
      ⟨"Galaxy", "G1", some "100", none, .null⟩
      ⟨"Galaxy", "G1", 100, "Out of Stock"⟩ (by rfl),
   transformer_output_name_sku_invariant.2.1 "a" (by decide) (by decide) (by decide),
   transformer_output_name_sku_invariant.2.2.1 "  " (Or.inr (by decide)),
   transformer_output_name_sku_invariant.2.2.2 "20250101"⟩

theorem loadRawData_foldl (ts : String) :
    ∀ (files : List InputFile) (acc : List Json) (stats : ProducerStats),
      files.foldl (loadStep ts) (acc, stats) =
        (acc ++ files.filterMap (fun f => (loadSingleJsonFile ts f).toOption),
         { stats with
            filesProcessed := stats.filesProcessed +
              (files.filter (fun f => !fileMalformed ts f)).length
            filesFailed := stats.filesFailed +
              (files.filter (fun f => fileMalformed ts f)).length
            errors := stats.errors ++ files.filterMap
              (fun f => match loadSingleJsonFile ts f with
                | .ok _ => none
                | .error e => some e) }) := by
  intro files
  induction files with
  | nil =>
    intro acc stats
    simp
  | cons f fs ih =>
    intro acc stats
    cases hf : loadSingleJsonFile ts f with
    | ok doc =>
      have hm : fileMalformed ts f = false := by simp [fileMalformed, hf]
      simp only [List.foldl_cons, loadStep, hf, List.filterMap_cons, List.filter_cons, hm]
      rw [ih]
      simp only [hf]
      rw [Prod.mk.injEq]
      refine ⟨by simp [Except.toOption], ?_⟩
      rw [ProducerStats.mk.injEq]
      refine ⟨by simp; omega, by simp, rfl, rfl, rfl, by simp, rfl⟩
    | error e =>
      have hm : fileMalformed ts f = true := by simp [fileMalformed, hf]
      simp only [List.foldl_cons, loadStep, hf, List.filterMap_cons, List.filter_cons, hm]
      rw [ih]
      simp only [hf]
      rw [Prod.mk.injEq]
      refine ⟨by simp [Except.toOption], ?_⟩
      rw [ProducerStats.mk.injEq]
      refine ⟨by simp, by simp; omega, rfl, rfl, rfl, by simp, rfl⟩

theorem processProducts_foldl_recs (ts : String) :
    ∀ (docs : List Json) (acc : List RawRecord) (stats : ProducerStats),
      (docs.foldl (processStep ts) (acc, stats)).1 =
        acc ++ docs.flatMap (extractRecs ts) := by
  intro docs
  induction docs with
  | nil => intro acc stats; simp
  | cons d ds ih =>
    intro acc stats
    simp only [List.foldl_cons, List.flatMap_cons, processStep]
    by_cases he : (extractRecs ts d).isEmpty
    · rw [if_pos he]
      rw [ih]
      have : extractRecs ts d = [] := by simpa [List.isEmpty_iff] using he
      simp [this]
    · rw [if_neg he]
      rw [ih]
      simp [List.append_assoc]

theorem processProducts_foldl_stats (ts : String) :
    ∀ (docs : List Json) (acc : List RawRecord) (stats : ProducerStats),
      ((docs.foldl (processStep ts) (acc, stats)).2.filesProcessed =
        stats.filesProcessed) ∧
      ((docs.foldl (processStep ts) (acc, stats)).2.filesFailed =
        stats.filesFailed) := by
  intro docs
  induction docs with
  | nil => intro acc stats; exact ⟨rfl, rfl⟩
  | cons d ds ih =>
    intro acc stats
    simp only [List.foldl_cons, processStep]
    by_cases he : (extractRecs ts d).isEmpty
    · rw [if_pos he]
      exact ih _ _
    · rw [if_neg he]
      exact ih _ _

theorem transformToProductData_foldl (ts : String) :
    ∀ (raws : List RawRecord) (acc : List ProductData) (n : ℕ) (es : List String),
      (raws.foldl (transformStep ts) (acc, n, es)).1 =
        acc ++ raws.filterMap (fun r => (transformSingleProduct ts r).toOption) := by
  intro raws
  induction raws with
  | nil => intro acc n es; simp
  | cons r rs ih =>
    intro acc n es
    cases hr : transformSingleProduct ts r with
    | ok p =>
      simp only [List.foldl_cons, transformStep, hr, List.filterMap_cons]
      rw [ih]
      simp [Except.toOption, List.append_assoc]
    | error e =>
      simp only [List.foldl_cons, transformStep, hr, List.filterMap_cons]
      rw [ih]
      simp [Except.toOption]

theorem isEmpty_false_of_ne {α : Type} {l : List α} (h : ¬ l = []) :
    l.isEmpty = false := by
  cases l with
  | nil => exact absurd rfl h
  | cons a t => rfl

theorem filter_length_compl {α : Type} (p : α → Bool) :
    ∀ l : List α, (l.filter p).length + (l.filter (fun a => !p a)).length = l.length := by
  intro l
  induction l with
  | nil => rfl
  | cons a t ih =>
    by_cases hp : p a = true
    · simp [List.filter_cons, hp]
      omega
    · simp [List.filter_cons, hp]
      omega

/-- C9: batch partial-failure accounting — when a batch holds M malformed
files (0 < M) and at least one well-formed file whose extraction yields a
record that transforms successfully, the pipeline completes without a fatal
error, the final statistics show `files_processed = N - M` and
`files_failed = M`, and the validated output collection is non-empty. -/
theorem batch_partial_failure_and_accounting :
    ∀ (ts outputPath : String) (files : List InputFile),
      0 < (files.filter (fun f => fileMalformed ts f)).length →
      (∃ f ∈ files, ∃ doc, loadSingleJsonFile ts f = .ok doc ∧
        ∃ raw ∈ extractRecs ts doc, ∃ p, transformSingleProduct ts raw = .ok p) →
      ∃ validated stats,
        processCompletePipeline ts outputPath files =
          (.ok (outputPath, validated, stats), stats) ∧
        ¬ validated = [] ∧
        stats.filesProcessed =
          files.length - (files.filter (fun f => fileMalformed ts f)).length ∧
        stats.filesFailed = (files.filter (fun f => fileMalformed ts f)).length := by
  intro ts op files hM hEx
  obtain ⟨f, hfmem, doc, hload, raw, hrawmem, p, htrans⟩ := hEx
  have hLpair : loadRawData ts files {} =
      (files.filterMap (fun g => (loadSingleJsonFile ts g).toOption),
       { filesProcessed := 0 + (files.filter (fun g => !fileMalformed ts g)).length
         filesFailed := 0 + (files.filter (fun g => fileMalformed ts g)).length
         productsExtracted := 0
         successfulValidations := 0
         validationFailures := 0
         errors := [] ++ files.filterMap
           (fun g => match loadSingleJsonFile ts g with
             | .ok _ => none
             | .error e => some e)
         warnings := [] }) := loadRawData_foldl ts files [] {}
  have hdocmem : doc ∈ files.filterMap (fun g => (loadSingleJsonFile ts g).toOption) :=
    List.mem_filterMap.mpr ⟨f, hfmem, by rw [hload]; rfl⟩
  have hdocs_ne : ¬ files.filterMap (fun g => (loadSingleJsonFile ts g).toOption) = [] :=
    List.ne_nil_of_mem hdocmem
  have hrawall : raw ∈ (files.filterMap
      (fun g => (loadSingleJsonFile ts g).toOption)).flatMap (extractRecs ts) :=
    List.mem_flatMap.mpr ⟨doc, hdocmem, hrawmem⟩
  have hall_ne : ¬ (files.filterMap
      (fun g => (loadSingleJsonFile ts g).toOption)).flatMap (extractRecs ts) = [] :=
    List.ne_nil_of_mem hrawall
  have hpmem : p ∈ ((files.filterMap
      (fun g => (loadSingleJsonFile ts g).toOption)).flatMap (extractRecs ts)).filterMap
      (fun r => (transformSingleProduct ts r).toOption) :=
    List.mem_filterMap.mpr ⟨raw, hrawall, by rw [htrans]; rfl⟩
  have hval_ne : ¬ ((files.filterMap
      (fun g => (loadSingleJsonFile ts g).toOption)).flatMap (extractRecs ts)).filterMap
      (fun r => (transformSingleProduct ts r).toOption) = [] :=
    List.ne_nil_of_mem hpmem
  have hrun1 : ∀ s : ProducerStats,
      (processProducts ts (files.filterMap
        (fun g => (loadSingleJsonFile ts g).toOption)) s).1 =
      (files.filterMap
        (fun g => (loadSingleJsonFile ts g).toOption)).flatMap (extractRecs ts) := by
    intro s
    simp only [processProducts]
    rw [processProducts_foldl_recs]
    rw [List.nil_append]
  have hvd1 : ∀ s : ProducerStats,
      (validateData ts ((files.filterMap
        (fun g => (loadSingleJsonFile ts g).toOption)).flatMap (extractRecs ts)) s).1 =
      ((files.filterMap
        (fun g => (loadSingleJsonFile ts g).toOption)).flatMap (extractRecs ts)).filterMap
        (fun r => (transformSingleProduct ts r).toOption) := by
    intro s
    simp only [validateData, transformToProductData]
    rw [transformToProductData_foldl]
    rw [List.nil_append]
  have hmain : processCompletePipeline ts op files =
      (.ok (op,
        (validateData ts
          ((processProducts ts (loadRawData ts files {}).1 (loadRawData ts files {}).2).1)
          ((processProducts ts (loadRawData ts files {}).1 (loadRawData ts files {}).2).2)).1,
        (validateData ts
          ((processProducts ts (loadRawData ts files {}).1 (loadRawData ts files {}).2).1)
          ((processProducts ts (loadRawData ts files {}).1 (loadRawData ts files {}).2).2)).2),
       (validateData ts
          ((processProducts ts (loadRawData ts files {}).1 (loadRawData ts files {}).2).1)
          ((processProducts ts (loadRawData ts files {}).1 (loadRawData ts files {}).2).2)).2) := by
    simp only [processCompletePipeline]
    rw [hLpair]
    simp only []
    rw [hrun1]
    rw [isEmpty_false_of_ne hdocs_ne]
    simp only [Bool.false_eq_true, if_false]
    rw [isEmpty_false_of_ne hall_ne]
    simp only [Bool.false_eq_true, if_false]
    rw [hvd1]
    rw [isEmpty_false_of_ne hval_ne]
    simp only [Bool.false_eq_true, if_false]
    simp only [exportCsv]
    rw [isEmpty_false_of_ne hval_ne]
    simp only [Bool.false_eq_true, if_false]
  refine ⟨_, _, hmain, ?_, ?_, ?_⟩
  · rw [hLpair]
    simp only []
    rw [hrun1, hvd1]
    exact hval_ne
  · rw [hLpair]
    simp only [validateData, processProducts]
    have hs := (processProducts_foldl_stats ts
      (files.filterMap (fun g => (loadSingleJsonFile ts g).toOption)) []
      { filesProcessed := 0 + (files.filter (fun g => !fileMalformed ts g)).length,
        filesFailed := 0 + (files.filter (fun g => fileMalformed ts g)).length,
        productsExtracted := 0, successfulValidations := 0, validationFailures := 0,
        errors := [] ++ files.filterMap
          (fun g => match loadSingleJsonFile ts g with
            | .ok _ => none
            | .error e => some e),
        warnings := [] }).1
    rw [hs]
    have hc := filter_length_compl (fun g => fileMalformed ts g) files
    simp only []
    omega
  · rw [hLpair]
    simp only [validateData, processProducts]
    have hs := (processProducts_foldl_stats ts
      (files.filterMap (fun g => (loadSingleJsonFile ts g).toOption)) []
      { filesProcessed := 0 + (files.filter (fun g => !fileMalformed ts g)).length,
        filesFailed := 0 + (files.filter (fun g => fileMalformed ts g)).length,
        productsExtracted := 0, successfulValidations := 0, validationFailures := 0,
        errors := [] ++ files.filterMap
          (fun g => match loadSingleJsonFile ts g with
            | .ok _ => none
            | .error e => some e),
        warnings := [] }).2
    rw [hs]
    simp

/-- Witness for C9: a two-file batch (one corrupt, one good) completes with
one processed and one failed file and a non-empty validated output. -/
theorem batch_partial_failure_and_accounting_witness :
    ∃ validated stats,
      processCompletePipeline "TS" "output.csv" demoFiles =
        (.ok ("output.csv", validated, stats), stats) ∧
      ¬ validated = [] ∧
      stats.filesProcessed =
        demoFiles.length - (demoFiles.filter (fun f => fileMalformed "TS" f)).length ∧
      stats.filesFailed = (demoFiles.filter (fun f => fileMalformed "TS" f)).length :=
  batch_partial_failure_and_accounting "TS" "output.csv" demoFiles (by decide)
    ⟨⟨"page_1.json", 200, some goodDoc⟩,
      List.mem_cons_of_mem _ (List.mem_cons_self _ _),
      goodDocLoaded, by rfl,
      goodRaw, by rw [show extractRecs "TS" goodDocLoaded = [goodRaw] from rfl]; exact List.mem_cons_self _ _,
      ⟨"Galaxy S24 Ultra", "295649", 30400, "Out of Stock"⟩, by rfl⟩

theorem natDigitsBE_zero : ∀ fuel, natDigitsBE fuel 0 = [] := by
  intro fuel
  cases fuel with
  | zero => rfl
  | succ f => simp [natDigitsBE]

theorem parseVals_append_single (l : List ℕ) (d : ℕ) (a : ℕ) :
    List.foldl (fun acc x => 10 * acc + x) a (l ++ [d]) =
      10 * List.foldl (fun acc x => 10 * acc + x) a l + d := by
  rw [List.foldl_append]
  rfl

theorem natDigitsBE_spec : ∀ fuel n, n ≤ fuel →
    List.foldl (fun acc x => 10 * acc + x) 0 (natDigitsBE fuel n) = n ∧
    (∀ d ∈ natDigitsBE fuel n, d < 10) ∧
    (¬ n = 0 → ¬ natDigitsBE fuel n = []) := by
  intro fuel
  induction fuel with
  | zero =>
    intro n hn
    have : n = 0 := Nat.le_zero.mp hn
    subst this
    refine ⟨rfl, ?_, ?_⟩
    · intro d hd
      cases hd
    · intro h
      exact absurd rfl h
  | succ f ih =>
    intro n hn
    by_cases hz : n = 0
    · subst hz
      refine ⟨by simp [natDigitsBE], ?_, ?_⟩
      · intro d hd
        simp [natDigitsBE] at hd
      · intro h
        exact absurd rfl h
    · have hrec : n / 10 ≤ f := by
        have : n / 10 < n := Nat.div_lt_self (Nat.pos_of_ne_zero hz) (by omega)
        omega
      obtain ⟨ih1, ih2, _⟩ := ih (n / 10) hrec
      have hne : natDigitsBE (f + 1) n = natDigitsBE f (n / 10) ++ [n % 10] := by
        simp [natDigitsBE, hz]
      refine ⟨?_, ?_, ?_⟩
      · rw [hne, parseVals_append_single, ih1]
        omega
      · intro d hd
        rw [hne] at hd
        rcases List.mem_append.mp hd with h1 | h2
        · exact ih2 d h1
        · simp at h2
          omega
      · intro _
        rw [hne]
        simp

theorem digitChar_isDigit {d : ℕ} (h : d < 10) : (digitChar d).isDigit = true := by
  interval_cases d <;> decide

theorem charDigitVal_digitChar {d : ℕ} (h : d < 10) : charDigitVal (digitChar d) = d := by
  interval_cases d <;> decide

theorem parse_map_digitChar : ∀ ds : List ℕ, (∀ d ∈ ds, d < 10) → ∀ a : ℕ,
    List.foldl (fun acc c => 10 * acc + charDigitVal c) a (ds.map digitChar) =
      List.foldl (fun acc d => 10 * acc + d) a ds := by
  intro ds
  induction ds with
  | nil => intro _ a; rfl
  | cons d t ih =>
    intro hd a
    simp only [List.map_cons, List.foldl_cons]
    rw [charDigitVal_digitChar (hd d (List.mem_cons_self _ _))]
    exact ih (fun x hx => hd x (List.mem_cons_of_mem _ hx)) _

theorem natToDecStr_spec (n : ℕ) :
    ¬ (natToDecStr n).data = [] ∧
    ((natToDecStr n).data.all Char.isDigit = true) ∧
    parseDigitsBE (natToDecStr n).data = n := by
  by_cases hz : n = 0
  · subst hz
    refine ⟨by decide, by decide, by decide⟩
  · obtain ⟨h1, h2, h3⟩ := natDigitsBE_spec n n (le_refl n)
    have hdata : (natToDecStr n).data = (natDigitsBE n n).map digitChar := by
      simp [natToDecStr, hz]
    refine ⟨?_, ?_, ?_⟩
    · rw [hdata]
      intro hcon
      exact (h3 hz) (by simpa using hcon)
    · rw [hdata]
      rw [List.all_eq_true]
      intro c hc
      obtain ⟨d, hd, rfl⟩ := List.mem_map.mp hc
      exact digitChar_isDigit (h2 d hd)
    · rw [hdata]
      unfold parseDigitsBE
      rw [parse_map_digitChar (natDigitsBE n n) h2 0, h1]

theorem splitFirst_none (p : Char → Bool) :
    ∀ l : List Char, (∀ c ∈ l, p c = false) → splitFirst p l = (l, none) := by
  intro l
  induction l with
  | nil => intro _; rfl
  | cons c t ih =>
    intro h
    simp only [splitFirst]
    rw [h c (List.mem_cons_self _ _)]
    simp only [Bool.false_eq_true, if_false]
    rw [ih (fun x hx => h x (List.mem_cons_of_mem _ hx))]

theorem splitFirst_append (p : Char → Bool) (d : Char) (hd : p d = true) :
    ∀ (A B : List Char), (∀ c ∈ A, p c = false) →
      splitFirst p (A ++ d :: B) = (A, some B) := by
  intro A
  induction A with
  | nil =>
    intro B _
    simp [splitFirst, hd]
  | cons a t ih =>
    intro B h
    simp only [List.cons_append, splitFirst]
    rw [h a (List.mem_cons_self _ _)]
    simp only [Bool.false_eq_true, if_false]
    rw [show t.append (d :: B) = t ++ d :: B from rfl,
      ih B (fun x hx => h x (List.mem_cons_of_mem _ hx))]

theorem pyStripL_of_no_ws (l : List Char) (h : ∀ c ∈ l, pyIsWS c = false) :
    pyStripL l = l := by
  have hdw : ∀ m : List Char, (∀ c ∈ m, pyIsWS c = false) → List.dropWhile pyIsWS m = m := by
    intro m hm
    cases m with
    | nil => rfl
    | cons c t => exact dropWhile_of_head_false pyIsWS c t (hm c (List.mem_cons_self _ _))
  unfold pyStripL lstripL
  rw [hdw l h]
  rw [hdw l.reverse (fun c hc => h c (List.mem_reverse.mp hc))]
  simp

theorem removeWordCIAux_no_match (w0 : Char) (wrest : List Char) :
    ∀ (fuel : ℕ) (prev : Option Char) (l : List Char),
      (∀ c ∈ l, ¬ pyLowerChar w0 = pyLowerChar c) →
      removeWordCIAux (w0 :: wrest) fuel prev l = l := by
  intro fuel
  induction fuel with
  | zero => intro prev l _; rfl
  | succ f ih =>
    intro prev l h
    cases l with
    | nil => rfl
    | cons c t =>
      have hm : wordMatchHere (w0 :: wrest) prev (c :: t) = false := by
        simp only [wordMatchHere, startsWithCI]
        have : ¬ pyLowerChar w0 = pyLowerChar c := h c (List.mem_cons_self _ _)
        simp [this]
      simp only [removeWordCIAux, hm]
      simp only [Bool.false_eq_true, if_false]
      rw [ih (some c) t (fun x hx => h x (List.mem_cons_of_mem _ hx))]

theorem removeWordCI_no_match (w : String) (l : List Char)
    (hw : ∃ w0 wrest, w.data = w0 :: wrest)
    (h : ∀ c ∈ l, ¬ pyLowerChar (w.data.headI) = pyLowerChar c) :
    removeWordCI w l = l := by
  obtain ⟨w0, wrest, hww⟩ := hw
  unfold removeWordCI
  rw [hww]
  apply removeWordCIAux_no_match
  intro c hc
  have := h c hc
  rw [hww] at this
  exact this

theorem isDigit_toNat {c : Char} (h : c.isDigit = true) :
    48 ≤ c.toNat ∧ c.toNat ≤ 57 := by
  unfold Char.isDigit at h
  rw [Bool.and_eq_true] at h
  obtain ⟨h1, h2⟩ := h
  rw [decide_eq_true_eq] at h1 h2
  exact ⟨h1, h2⟩

theorem rhe_nonneg (q : ℚ) (h : 0 ≤ q) : 0 ≤ rhe q := by
  have hf : 0 ≤ ⌊q⌋ := Int.floor_nonneg.mpr h
  simp only [rhe]
  split_ifs <;> omega

theorem rhe_natCast (k : ℕ) : rhe ((k : ℚ)) = k := by
  have hf : ⌊(k : ℚ)⌋ = (k : ℤ) := Int.floor_natCast k
  simp only [rhe, hf]
  have h0 : (k : ℚ) - ((k : ℤ) : ℚ) = 0 := by push_cast; ring
  rw [h0]
  norm_num

theorem round2_form (p : ℚ) (hp : 0 ≤ p) : ∃ m : ℕ, round2 p = (m : ℚ) / 100 := by
  refine ⟨(rhe (p * 100)).toNat, ?_⟩
  have h0 : 0 ≤ rhe (p * 100) := rhe_nonneg _ (by positivity)
  unfold round2
  rw [show (((rhe (p * 100)).toNat : ℕ) : ℚ) = ((rhe (p * 100) : ℤ) : ℚ) from by
    exact_mod_cast congrArg (fun z : ℤ => (z : ℚ)) (Int.toNat_of_nonneg h0)]

theorem parsePrice_ok_form {x : PriceInput} {q : ℚ} (h : parsePrice x = .ok q) :
    ∃ m : ℕ, q = (m : ℚ) / 100 := by
  cases x with
  | pNone => cases h
  | pInt n =>
    simp only [parsePrice] at h
    split at h
    · cases h
    · next hn =>
      cases h
      have h0 : (0 : ℤ) ≤ n := not_lt.mp (by assumption)
      exact round2_form _ (by exact_mod_cast h0)
  | pFloat p =>
    simp only [parsePrice] at h
    split at h
    · cases h
    · next hn =>
      cases h
      exact round2_form _ (by linarith [not_lt.mp hn])
  | pStr s =>
    simp only [parsePrice] at h
    split at h
    · cases h
    · split at h
      · cases h
      · split at h
        · cases h
        · next parsed hpf =>
          split at h
          · cases h
          · next hn =>
            cases h
            exact round2_form _ (not_lt.mp hn)

theorem char_ne_of_toNat_ne {a b : Char} (h : ¬ a.toNat = b.toNat) : ¬ a = b :=
  fun he => h (congrArg Char.toNat he)

theorem digitOrDot_props {c : Char} (hc : c.isDigit = true ∨ c = '.') :
    pyIsWS c = false ∧ pyLowerChar c = c ∧ 46 ≤ c.toNat ∧ c.toNat ≤ 57 ∧
      ¬ c.toNat = 47 := by
  have hb : (46 ≤ c.toNat ∧ c.toNat ≤ 57) ∧ ¬ c.toNat = 47 := by
    cases hc with
    | inl h =>
      have := isDigit_toNat h
      exact ⟨by omega, by omega⟩
    | inr h =>
      subst h
      refine ⟨by decide, by decide⟩
  refine ⟨?_, ?_, hb.1.1, hb.1.2, hb.2⟩
  · rw [Bool.eq_false_iff]
    rw [ne_eq, pyIsWS_true_iff]
    omega
  · unfold pyLowerChar
    rw [if_neg (by omega)]

theorem cleanPriceString_id (s : String)
    (hall : ∀ c ∈ s.data, c.isDigit = true ∨ c = '.')
    (hdot : s.data.count '.' ≤ 1) :
    cleanPriceString s = s := by
  have props := fun c hc => digitOrDot_props (hall c hc)
  have hf1 : s.data.filter (fun c => c ≠ '฿') = s.data := by
    rw [List.filter_eq_self]
    intro c hc
    have := (props c hc).2.2.2.1
    simp only [ne_eq, decide_eq_true_eq]
    exact char_ne_of_toNat_ne (by rw [show ('฿').toNat = 3647 from rfl]; omega)
  have hw1 : removeWordCI "thb" s.data = s.data := by
    apply removeWordCI_no_match _ _ ⟨'t', ['h', 'b'], rfl⟩
    intro c hc
    rw [show ("thb" : String).data.headI = 't' from rfl]
    rw [(props c hc).2.1, show pyLowerChar 't' = 't' from rfl]
    have := (props c hc).2.2.2.1
    exact char_ne_of_toNat_ne (by rw [show ('t').toNat = 116 from rfl]; omega)
  have hw2 : removeWordCI "baht" s.data = s.data := by
    apply removeWordCI_no_match _ _ ⟨'b', ['a', 'h', 't'], rfl⟩
    intro c hc
    rw [show ("baht" : String).data.headI = 'b' from rfl]
    rw [(props c hc).2.1, show pyLowerChar 'b' = 'b' from rfl]
    have := (props c hc).2.2.2.1
    exact char_ne_of_toNat_ne (by rw [show ('b').toNat = 98 from rfl]; omega)
  have hw3 : removeWordCI "บาท" s.data = s.data := by
    apply removeWordCI_no_match _ _ ⟨'บ', ['า', 'ท'], rfl⟩
    intro c hc
    rw [show ("บาท" : String).data.headI = 'บ' from rfl]
    rw [(props c hc).2.1, show pyLowerChar 'บ' = 'บ' from rfl]
    have := (props c hc).2.2.2.1
    exact char_ne_of_toNat_ne (by rw [show ('บ').toNat = 3610 from rfl]; omega)
  have hf2 : s.data.filter (fun c => c ≠ ',') = s.data := by
    rw [List.filter_eq_self]
    intro c hc
    have := (props c hc).2.2.1
    simp only [ne_eq, decide_eq_true_eq]
    exact char_ne_of_toNat_ne (by rw [show (',').toNat = 44 from rfl]; omega)
  have hf3 : s.data.filter (fun c => !pyIsWS c) = s.data := by
    rw [List.filter_eq_self]
    intro c hc
    rw [(props c hc).1]
    rfl
  simp only [cleanPriceString, hf1, hw1, hw2, hw3, hf2, hf3]
  rw [if_neg (by omega)]
  rw [pyStripL_of_no_ws s.data (fun c hc => (props c hc).1)]

theorem pyFloat_digits_dot (A B : List Char)
    (hAne : ¬ A = []) (hAdig : A.all Char.isDigit = true)
    (_hBne : ¬ B = []) (hBdig : B.all Char.isDigit = true) :
    pyFloat (String.mk (A ++ '.' :: B)) =
      some ((parseDigitsBE A : ℚ) + (parseDigitsBE B : ℚ) / (10 : ℚ) ^ B.length) := by
  have hAd : ∀ c ∈ A, c.isDigit = true := fun c hc => by
    rw [List.all_eq_true] at hAdig
    exact hAdig c hc
  have hBd : ∀ c ∈ B, c.isDigit = true := fun c hc => by
    rw [List.all_eq_true] at hBdig
    exact hBdig c hc
  have hmem : ∀ c ∈ A ++ '.' :: B, c.isDigit = true ∨ c = '.' := by
    intro c hc
    rcases List.mem_append.mp hc with h | h
    · exact Or.inl (hAd c h)
    · rcases List.mem_cons.mp h with h1 | h2
      · exact Or.inr h1
      · exact Or.inl (hBd c h2)
  have props := fun c hc => digitOrDot_props (hmem c hc)
  have hstrip : pyStripL (A ++ '.' :: B) = A ++ '.' :: B :=
    pyStripL_of_no_ws _ (fun c hc => (props c hc).1)
  obtain ⟨a, At, rfl⟩ : ∃ a At, A = a :: At := by
    cases A with
    | nil => exact absurd rfl hAne
    | cons a t => exact ⟨a, t, rfl⟩
  have haDig := isDigit_toNat (hAd a (List.mem_cons_self _ _))
  have hsplitE : splitFirst (fun c => c = 'e' || c = 'E') ((a :: At) ++ '.' :: B) =
      ((a :: At) ++ '.' :: B, none) := by
    apply splitFirst_none
    intro c hc
    have hb := (props c hc).2.2
    rw [Bool.or_eq_false_iff]
    constructor
    · rw [decide_eq_false_iff_not]
      exact char_ne_of_toNat_ne (by rw [show ('e').toNat = 101 from rfl]; omega)
    · rw [decide_eq_false_iff_not]
      exact char_ne_of_toNat_ne (by rw [show ('E').toNat = 69 from rfl]; omega)
  have hsplitDot : splitFirst (fun c => c = '.') ((a :: At) ++ '.' :: B) =
      (a :: At, some B) := by
    apply splitFirst_append _ _ (by decide)
    intro c hc
    have := isDigit_toNat (hAd c hc)
    rw [decide_eq_false_iff_not]
    exact char_ne_of_toNat_ne (by rw [show ('.').toNat = 46 from rfl]; omega)
  have hBnoDot : B.any (fun c => c = '.') = false := by
    rw [Bool.eq_false_iff, ne_eq, List.any_eq_true]
    rintro ⟨c, hc, hcd⟩
    have := isDigit_toNat (hBd c hc)
    rw [decide_eq_true_eq] at hcd
    exact char_ne_of_toNat_ne (by rw [show ('.').toNat = 46 from rfl]; omega) hcd
  have haPlus : ¬ a = '+' :=
    char_ne_of_toNat_ne (by rw [show ('+').toNat = 43 from rfl]; omega)
  have haMinus : ¬ a = '-' :=
    char_ne_of_toNat_ne (by rw [show ('-').toNat = 45 from rfl]; omega)
  have hcond : (!((a :: At) ++ B).isEmpty && ((a :: At) ++ B).all Char.isDigit &&
      !B.any (fun c => c = '.')) = true := by
    rw [hBnoDot]
    simp only [List.cons_append, List.isEmpty_cons, Bool.not_false, Bool.and_true,
      Bool.true_and]
    rw [List.all_eq_true]
    intro c hc
    rcases List.mem_cons.mp hc with h | h
    · rw [h]
      exact hAd a (List.mem_cons_self _ _)
    · rcases List.mem_append.mp h with h1 | h1
      · exact hAd c (List.mem_cons_of_mem _ h1)
      · exact hBd c h1
  simp only [pyFloat]
  rw [show pyStripL (String.mk ((a :: At) ++ '.' :: B)).data = (a :: At) ++ '.' :: B from hstrip]
  simp only [List.cons_append]
  rw [show ((a :: (At ++ '.' :: B) : List Char)) = (a :: At) ++ '.' :: B from rfl]
  simp only [if_neg haPlus, if_neg haMinus]
  rw [hsplitE]
  simp only []
  rw [hsplitDot]
  simp only []
  rw [if_pos hcond]
  show some ((1 : ℚ) * (((parseDigitsBE (a :: At) : ℚ)) + (parseDigitsBE B : ℚ) / (10 : ℚ) ^ B.length)) = _
  rw [one_mul]

theorem round2_div100 (m : ℕ) : round2 ((m : ℚ) / 100) = (m : ℚ) / 100 := by
  unfold round2
  rw [div_mul_cancel₀ _ (by norm_num : (100 : ℚ) ≠ 0)]
  rw [rhe_natCast]
  push_cast
  ring

theorem parsePrice_canonical (A B : List Char) (m : ℕ)
    (hAne : ¬ A = []) (hAdig : A.all Char.isDigit = true)
    (hBne : ¬ B = []) (hBdig : B.all Char.isDigit = true)
    (hval : (parseDigitsBE A : ℚ) + (parseDigitsBE B : ℚ) / (10 : ℚ) ^ B.length =
      (m : ℚ) / 100) :
    parsePrice (.pStr (String.mk (A ++ '.' :: B))) = .ok ((m : ℚ) / 100) := by
  have hAd : ∀ c ∈ A, c.isDigit = true := fun c hc => by
    rw [List.all_eq_true] at hAdig
    exact hAdig c hc
  have hBd : ∀ c ∈ B, c.isDigit = true := fun c hc => by
    rw [List.all_eq_true] at hBdig
    exact hBdig c hc
  have hmem : ∀ c ∈ A ++ '.' :: B, c.isDigit = true ∨ c = '.' := by
    intro c hc
    rcases List.mem_append.mp hc with h | h
    · exact Or.inl (hAd c h)
    · rcases List.mem_cons.mp h with h1 | h2
      · exact Or.inr h1
      · exact Or.inl (hBd c h2)
  have props := fun c hc => digitOrDot_props (hmem c hc)
  have hlne : ¬ (A ++ '.' :: B) = [] := by
    intro hcon
    rcases List.append_eq_nil.mp hcon with ⟨_, h2⟩
    cases h2
  have hstrip : pyStrip (String.mk (A ++ '.' :: B)) = String.mk (A ++ '.' :: B) := by
    unfold pyStrip
    rw [show (String.mk (A ++ '.' :: B)).data = A ++ '.' :: B from rfl]
    rw [pyStripL_of_no_ws _ (fun c hc => (props c hc).1)]
  have hsne : ¬ String.mk (A ++ '.' :: B) = "" := by
    rw [string_mk_eq_empty]
    exact hlne
  have hdotcount : (A ++ '.' :: B).count '.' ≤ 1 := by
    rw [List.count_append, List.count_cons]
    have hA0 : A.count '.' = 0 := by
      rw [List.count_eq_zero]
      intro hcon
      have := isDigit_toNat (hAd _ hcon)
      rw [show ('.').toNat = 46 from rfl] at this
      omega
    have hB0 : B.count '.' = 0 := by
      rw [List.count_eq_zero]
      intro hcon
      have := isDigit_toNat (hBd _ hcon)
      rw [show ('.').toNat = 46 from rfl] at this
      omega
    simp [hA0, hB0]
  have hclean : cleanPriceString (String.mk (A ++ '.' :: B)) = String.mk (A ++ '.' :: B) :=
    cleanPriceString_id _ hmem hdotcount
  have hfloat := pyFloat_digits_dot A B hAne hAdig hBne hBdig
  have hvpos : (0 : ℚ) ≤ (m : ℚ) / 100 := by positivity
  simp only [parsePrice]
  rw [hstrip]
  rw [if_neg hsne]
  rw [hclean]
  rw [if_neg hsne]
  rw [hfloat]
  rw [hval]
  show (if ((m : ℚ) / 100) < 0 then Except.error "Price cannot be negative"
    else Except.ok (round2 ((m : ℚ) / 100))) = Except.ok ((m : ℚ) / 100)
  rw [if_neg (by exact not_lt.mpr hvpos)]
  rw [round2_div100]

theorem natDigitsBE_single : ∀ (fuel k : ℕ), 0 < k → k < 10 → k ≤ fuel →
    natDigitsBE fuel k = [k] := by
  intro fuel k h1 h2 hf
  cases fuel with
  | zero => omega
  | succ f =>
    have hk : ¬ k = 0 := by omega
    simp only [natDigitsBE, hk, if_false]
    rw [Nat.div_eq_of_lt h2, natDigitsBE_zero, Nat.mod_eq_of_lt h2]
    rfl

theorem natDigitsBE_two : ∀ (fuel k : ℕ), 10 ≤ k → k < 100 → k ≤ fuel →
    natDigitsBE fuel k = [k / 10, k % 10] := by
  intro fuel k h1 h2 hf
  cases fuel with
  | zero => omega
  | succ f =>
    have hk : ¬ k = 0 := by omega
    simp only [natDigitsBE, hk, if_false]
    rw [natDigitsBE_single f (k / 10) (by omega) (by omega) (by omega)]
    rfl

theorem natToDecStr_single {k : ℕ} (h1 : 0 < k) (h2 : k < 10) :
    (natToDecStr k).data = [digitChar k] := by
  have hk : ¬ k = 0 := by omega
  simp only [natToDecStr, hk, if_false]
  rw [natDigitsBE_single k k h1 h2 (le_refl k)]
  rfl

theorem natToDecStr_double {k : ℕ} (h1 : 10 ≤ k) (h2 : k < 100) :
    (natToDecStr k).data = [digitChar (k / 10), digitChar (k % 10)] := by
  have hk : ¬ k = 0 := by omega
  simp only [natToDecStr, hk, if_false]
  rw [natDigitsBE_two k k h1 h2 (le_refl k)]
  rfl

/-- C7 core: re-parsing the printed form of `m / 100` returns it exactly. -/
theorem parsePrice_floatStr (m : ℕ) :
    parsePrice (.pStr (pyFloatStr ((m : ℚ) / 100))) = .ok ((m : ℚ) / 100) := by
  have hq100 : ((m : ℚ) / 100) * 100 = (m : ℚ) :=
    div_mul_cancel₀ _ (by norm_num : (100 : ℚ) ≠ 0)
  have hfloor : ⌊((m : ℚ) / 100) * 100⌋ = (m : ℤ) := by
    rw [hq100]
    exact_mod_cast Int.floor_natCast m
  have hmm : (⌊((m : ℚ) / 100) * 100⌋).toNat = m := by
    rw [hfloor]
    exact Int.toNat_natCast m
  have hmdm : 100 * (m / 100) + m % 100 = m := Nat.div_add_mod m 100
  have hAspec := natToDecStr_spec (m / 100)
  have hstrapp : ∀ x z : List Char,
      String.mk x ++ "." ++ String.mk z = String.mk (x ++ '.' :: z) := by
    intro x z
    show String.mk ((x ++ ['.']) ++ z) = String.mk (x ++ '.' :: z)
    rw [List.append_assoc]
    rfl
  have hEta : ∀ s : String, String.mk s.data = s := fun s => rfl
  by_cases hrem : m % 100 = 0
  · have hF : pyFloatStr ((m : ℚ) / 100) =
        String.mk ((natToDecStr (m / 100)).data ++ '.' :: ['0']) := by
      simp only [pyFloatStr, hmm]
      rw [if_pos hrem]
      show String.mk (natToDecStr (m / 100)).data ++ "." ++ String.mk ['0'] = _
      rw [hstrapp]
    rw [hF]
    apply parsePrice_canonical _ _ m hAspec.1 hAspec.2.1 (by simp) (by decide)
    rw [hAspec.2.2]
    have hmq : (m : ℚ) = 100 * ((m / 100 : ℕ) : ℚ) := by
      exact_mod_cast congrArg (fun k : ℕ => (k : ℚ)) (by omega : m = 100 * (m / 100))
    rw [show parseDigitsBE ['0'] = 0 from rfl, hmq]
    push_cast
    norm_num
  · by_cases hr10 : m % 100 % 10 = 0
    · have hd1 : 0 < m % 100 / 10 := by omega
      have hd2 : m % 100 / 10 < 10 := by omega
      have hF : pyFloatStr ((m : ℚ) / 100) =
          String.mk ((natToDecStr (m / 100)).data ++ '.' :: [digitChar (m % 100 / 10)]) := by
        simp only [pyFloatStr, hmm]
        rw [if_neg hrem, if_pos hr10]
        rw [← hEta (natToDecStr (m / 100)), ← natToDecStr_single hd1 hd2,
          ← hEta (natToDecStr (m % 100 / 10)), hstrapp]
      rw [hF]
      apply parsePrice_canonical _ _ m hAspec.1 hAspec.2.1 (by simp)
        (by simp [digitChar_isDigit hd2])
      rw [hAspec.2.2]
      rw [show parseDigitsBE [digitChar (m % 100 / 10)] =
        charDigitVal (digitChar (m % 100 / 10)) from by simp [parseDigitsBE]]
      rw [charDigitVal_digitChar hd2]
      have hm : (m : ℚ) = 100 * ((m / 100 : ℕ) : ℚ) + 10 * ((m % 100 / 10 : ℕ) : ℚ) := by
        exact_mod_cast congrArg (fun k : ℕ => (k : ℚ))
          (by omega : m = 100 * (m / 100) + 10 * (m % 100 / 10))
      rw [hm, show (([digitChar (m % 100 / 10)] : List Char)).length = 1 from rfl]
      norm_num
      ring
    · by_cases hsmall : m % 100 < 10
      · have hd1 : 0 < m % 100 := by omega
        have hF : pyFloatStr ((m : ℚ) / 100) =
            String.mk ((natToDecStr (m / 100)).data ++ '.' :: ['0', digitChar (m % 100)]) := by
          simp only [pyFloatStr, hmm, if_neg hrem, hr10, if_neg hr10, if_pos hsmall]
          rw [← hEta (natToDecStr (m / 100)), ← natToDecStr_single hd1 hsmall]
          show String.mk (natToDecStr (m / 100)).data ++ "." ++
            ("0" ++ String.mk (natToDecStr (m % 100)).data) = _
          rw [← hEta (natToDecStr (m % 100)), natToDecStr_single hd1 hsmall]
          show String.mk (natToDecStr (m / 100)).data ++ "." ++
            String.mk ('0' :: [digitChar (m % 100)]) = _
          rw [hstrapp]
        rw [hF]
        apply parsePrice_canonical _ _ m hAspec.1 hAspec.2.1 (by simp)
          (by simp [digitChar_isDigit hsmall])
        rw [hAspec.2.2]
        rw [show parseDigitsBE ['0', digitChar (m % 100)] =
          charDigitVal (digitChar (m % 100)) from by
            simp [parseDigitsBE, charDigitVal]]
        rw [charDigitVal_digitChar hsmall]
        have hm : (m : ℚ) = 100 * ((m / 100 : ℕ) : ℚ) + ((m % 100 : ℕ) : ℚ) := by
          exact_mod_cast congrArg (fun k : ℕ => (k : ℚ))
            (by omega : m = 100 * (m / 100) + m % 100)
        rw [hm]
        rw [show ((['0', digitChar (m % 100)] : List Char)).length = 2 from rfl]
        rw [show ((10:ℚ))^(2:ℕ) = 100 from by norm_num]
        ring
      · have hd1 : 10 ≤ m % 100 := by omega
        have hd2 : m % 100 < 100 := Nat.mod_lt m (by omega)
        have hF : pyFloatStr ((m : ℚ) / 100) =
            String.mk ((natToDecStr (m / 100)).data ++
              '.' :: [digitChar (m % 100 / 10), digitChar (m % 100 % 10)]) := by
          simp only [pyFloatStr, hmm, if_neg hrem, if_neg hr10, if_neg hsmall]
          rw [← hEta (natToDecStr (m / 100)), ← natToDecStr_double hd1 hd2,
            ← hEta (natToDecStr (m % 100)), hstrapp]
        rw [hF]
        apply parsePrice_canonical _ _ m hAspec.1 hAspec.2.1 (by simp)
          (by simp [digitChar_isDigit (show m % 100 / 10 < 10 from by omega),
            digitChar_isDigit (show m % 100 % 10 < 10 from by omega)])
        rw [hAspec.2.2]
        rw [show parseDigitsBE [digitChar (m % 100 / 10), digitChar (m % 100 % 10)] =
          10 * charDigitVal (digitChar (m % 100 / 10)) +
            charDigitVal (digitChar (m % 100 % 10)) from by
            simp [parseDigitsBE, charDigitVal]]
        rw [charDigitVal_digitChar (show m % 100 / 10 < 10 from by omega)]
        rw [charDigitVal_digitChar (show m % 100 % 10 < 10 from by omega)]
        have hm : (m : ℚ) = 100 * ((m / 100 : ℕ) : ℚ) +
            (10 * ((m % 100 / 10 : ℕ) : ℚ) + ((m % 100 % 10 : ℕ) : ℚ)) := by
          exact_mod_cast congrArg (fun k : ℕ => (k : ℚ))
            (by omega : m = 100 * (m / 100) + (10 * (m % 100 / 10) + m % 100 % 10))
        rw [hm]
        push_cast
        rw [show (([digitChar (m % 100 / 10), digitChar (m % 100 % 10)] : List Char)).length
          = 2 from rfl]
        rw [show ((10:ℚ))^(2:ℕ) = 100 from by norm_num]
        ring

/-- C7: price parsing is idempotent on its own output — whenever
`parse_price` succeeds with value `q`, re-parsing Python's string form of
that float returns exactly `q` (exact-rational model of Python floats). -/
theorem price_parsing_idempotent_on_own_output :
    ∀ (x : PriceInput) (q : ℚ), parsePrice x = .ok q →
      parsePrice (.pStr (pyFloatStr q)) = .ok q := by
  intro x q h
  obtain ⟨m, rfl⟩ := parsePrice_ok_form h
  exact parsePrice_floatStr m

/-- Witness for C7 at the input `฿999` (printed back as `999.0`). -/
theorem price_parsing_idempotent_on_own_output_witness :
    parsePrice (.pStr "฿999") = .ok (999 : ℚ) ∧
    parsePrice (.pStr (pyFloatStr (999 : ℚ))) = .ok (999 : ℚ) :=
  ⟨by decide, price_parsing_idempotent_on_own_output (.pStr "฿999") (999 : ℚ) (by decide)⟩

end BkkGadgetHub
